import Mathlib

/-!
Verification development for the perun complexity-collector C++ runtime
(`cpp_sources`: `configuration.cpp`, `profile.cpp`, `profile_api.cpp`).

The C++ sources are shallowly embedded:
* pointers / addresses are `Nat` (an opaque address-sized identity),
* `std::string` text is `List Char`,
* the `std::unordered_map<void*, Config_details>` policy table is an
  association list with the map's find / operator[] / guarded-insert
  operations,
* machine integers carry their C ranges explicitly where the source can
  overflow (`std::stoul` / `std::stoi` / `std::stoull` out-of-range checks,
  LP64: `unsigned long` and `unsigned long long` are 64-bit, `int` 32-bit),
* C++ exceptions are `Except`: `Conf_file_syntax_exception` and the
  `std::out_of_range` thrown by the `sto*` conversions are the two error
  alternatives threaded through the parser; `Parse` catches only the former
  (plus `Conf_file_missing_exception`), exactly as in the source.
-/

namespace Perun

/-! ## Configuration store (configuration.h) -/

/-- `Exit_error_codes`: profile output file cannot be opened. -/
def EXIT_ERR_PROFILE_FILE_OPEN : Nat := 1

/-- `Exit_error_codes`: profile output file closed unexpectedly. -/
def EXIT_ERR_PROFILE_FILE_CLOSED : Nat := 2

/-- `Exit_error_codes`: configuration file does not exist. -/
def EXIT_ERR_CONFIG_FILE_OPEN : Nat := 11

/-- `Exit_error_codes`: configuration file incorrect syntax. -/
def EXIT_ERR_CONFIG_FILE_SYNTAX : Nat := 12

/-- `Configuration::sample_init`, the default sampling configuration value. -/
def sample_init : Int := 0

/-- `Configuration::Config_details`: per-function policy record
(`is_filtered`, `is_sampled`, `sample_current`, `sample_ratio`).
The two counters are C++ `int`; the claims never reach its range,
so they are embedded as unbounded `Int`. -/
structure Config_details where
  is_filtered : Bool
  is_sampled : Bool
  sample_current : Int
  sample_ratio : Int
deriving DecidableEq, Repr

/-- `Config_details(true)` with the constructor's default arguments. -/
def filtered_details : Config_details := ⟨true, false, sample_init, sample_init⟩

/-- The `std::unordered_map<void *, Config_details> func_config` table,
embedded as an association list keyed by the function address. -/
abbrev FuncMap := List (Nat × Config_details)

/-- `func_config.find(a)`. -/
def fcFind : FuncMap → Nat → Option Config_details
  | [], _ => none
  | (k, d) :: rest, a => if k = a then some d else fcFind rest a

/-- `func_config[a] = d` (insert-or-assign, as done by `Parse_filter`),
and also the in-place mutation through a `find` iterator (the dispatcher's
`sample_current` updates): the binding of an existing key is replaced,
a missing key is appended. -/
def fcSet : FuncMap → Nat → Config_details → FuncMap
  | [], a, d => [(a, d)]
  | (k, e) :: rest, a, d =>
    if k = a then (k, d) :: rest else (k, e) :: fcSet rest a d

/-- `CollectorConfig` data of class `Configuration`: `trace_file_name`,
`instr_data_init_len`, `use_direct_file_output` and the policy table. -/
structure Configuration where
  trace_file_name : List Char
  instr_data_init_len : Nat
  use_direct_file_output : Bool
  func_config : FuncMap
deriving DecidableEq, Repr

/-- `Configuration::default_instr_data_init_len = 20000`. -/
def default_instr_data_init_len : Nat := 20000

/-- The `Configuration()` constructor state: `trace_file_name = "trace.log"`,
`instr_data_init_len = default_instr_data_init_len`,
`use_direct_file_output = false`, empty policy table. -/
def initConfiguration : Configuration :=
  ⟨"trace.log".data, default_instr_data_init_len, false, []⟩

/-! ## Lexer (configuration.cpp, `Configuration::Next_token`) -/

/-- `Configuration::Token_t`. -/
inductive Token_t where
  | Magic
  | Text_value
  | Number_value
  | Bool_value
  | Op_colon
  | Op_equals
  | Br_curly_begin
  | Br_curly_end
  | Br_square_begin
  | Br_square_end
  | Comma
  | File_end
deriving DecidableEq, Repr

/-- Parser-level errors: `syn` is `Conf_file_syntax_exception`, `range` is
the `std::out_of_range` thrown by `std::stoul` / `std::stoi` /
`std::stoull` (the source's `Parse` does **not** catch the latter). -/
inductive PErr where
  | syn
  | range
deriving DecidableEq, Repr

/-- C `isspace` on the default locale (the characters skipped by the
`Init` state of `Next_token`). -/
def isSpaceC (c : Char) : Bool :=
  c = ' ' || c = '\t' || c = '\n' || c = '\r' ||
    c = Char.ofNat 11 || c = Char.ofNat 12

/-- The `Text` FSM state of `Next_token`: accumulate every character up to
and including the closing quote; end of input inside the token is the
"unexpected token interrupt" syntax error. Returns (token value, rest). -/
def lexText : List Char → List Char → Except PErr (List Char × List Char)
  | [], _ => .error .syn
  | c :: rest, acc =>
    if c = '"' then .ok (acc ++ [c], rest) else lexText rest (acc ++ [c])

/-- The `Number` FSM state: accumulate digits; the first non-digit is pushed
back (`position--`); end of input inside the token is a syntax error. -/
def lexNumber : List Char → List Char → Except PErr (List Char × List Char)
  | [], _ => .error .syn
  | c :: rest, acc =>
    if c.isDigit then lexNumber rest (acc ++ [c]) else .ok (acc, c :: rest)

/-- The `Magic` FSM state: accumulate characters from {C,I,R}; any other
character terminates the token, which is accepted (with push-back) only if
the accumulated value is exactly "CIRC"; end of input is a syntax error. -/
def lexMagic : List Char → List Char → Except PErr (List Char × List Char)
  | [], _ => .error .syn
  | c :: rest, acc =>
    if c = 'C' || c = 'I' || c = 'R' then lexMagic rest (acc ++ [c])
    else if acc = "CIRC".data then .ok (acc, c :: rest)
    else .error .syn

/-- The `Bool` FSM state: accumulate characters from {a,l,s,e,r,u}; any
other character terminates the token, accepted (with push-back) only if the
value is "false" or "true"; end of input is a syntax error. -/
def lexBool : List Char → List Char → Except PErr (List Char × List Char)
  | [], _ => .error .syn
  | c :: rest, acc =>
    if c = 'a' || c = 'l' || c = 's' || c = 'e' || c = 'r' || c = 'u' then
      lexBool rest (acc ++ [c])
    else if acc = "false".data || acc = "true".data then .ok (acc, c :: rest)
    else .error .syn

/-- The non-whitespace dispatch of `Next_token`'s `Init` state: recognize
one token starting at the (non-space) character `c`; an unrecognized
character throws `Conf_file_syntax_exception`. -/
def init_token (c : Char) (rest : List Char) :
    Except PErr (Token_t × List Char × List Char) :=
  if c = '=' then .ok (.Op_equals, [c], rest)
  else if c = ':' then .ok (.Op_colon, [c], rest)
  else if c = '[' then .ok (.Br_square_begin, [c], rest)
  else if c = ']' then .ok (.Br_square_end, [c], rest)
  else if c = '{' then .ok (.Br_curly_begin, [c], rest)
  else if c = '}' then .ok (.Br_curly_end, [c], rest)
  else if c = ',' then .ok (.Comma, [c], rest)
  else if c = '"' then
    match lexText rest [c] with
    | .error e => .error e
    | .ok (v, r) => .ok (.Text_value, v, r)
  else if c = 'C' then
    match lexMagic rest [c] with
    | .error e => .error e
    | .ok (v, r) => .ok (.Magic, v, r)
  else if c.isDigit then
    match lexNumber rest [c] with
    | .error e => .error e
    | .ok (v, r) => .ok (.Number_value, v, r)
  else if c = 'f' || c = 't' then
    match lexBool rest [c] with
    | .error e => .error e
    | .ok (v, r) => .ok (.Bool_value, v, r)
  else .error .syn

/-- `Configuration::Next_token` on the remaining file contents: skip
whitespace, then recognize one token (type, value, rest of the input).
End of input in the `Init` state yields `File_end` (the C++ `false`
return). -/
def next_token : List Char → Except PErr (Token_t × List Char × List Char)
  | [] => .ok (.File_end, [], [])
  | c :: rest => if isSpaceC c then next_token rest else init_token c rest

/-- `Configuration::Test_next_token_type`: read the next token and check its
type; a mismatch throws `Conf_file_syntax_exception`. Returns the token
value and the remaining input. -/
def test_next_token_type (expected : Token_t) (l : List Char) :
    Except PErr (List Char × List Char) :=
  match next_token l with
  | .error e => .error e
  | .ok (t, v, r) => if t = expected then .ok (v, r) else .error .syn

/-- Numeric value of a digit string (the `sto*` conversions all receive
digit-only tokens from the lexer). -/
def digits_to_nat (v : List Char) : Nat :=
  v.foldl (fun a c => a * 10 + (c.toNat - 48)) 0

/-- `ULONG_MAX` = `ULLONG_MAX` on LP64 (64-bit `unsigned long`). -/
def ULONG_MAX : Nat := 18446744073709551615

/-- `INT_MAX` (32-bit `int`). -/
def INT_MAX : Nat := 2147483647

/-- `std::stoul`: out of the range of `unsigned long` throws
`std::out_of_range`. -/
def stoul (v : List Char) : Except PErr Nat :=
  if digits_to_nat v ≤ ULONG_MAX then .ok (digits_to_nat v) else .error .range

/-- `std::stoi`: out of the range of `int` throws `std::out_of_range`
(the token is digit-only, hence non-negative). -/
def stoi (v : List Char) : Except PErr Int :=
  if digits_to_nat v ≤ INT_MAX then .ok (digits_to_nat v) else .error .range

/-- `Configuration::Address_token_to_pointer`: `std::stoull` on the decimal
token (out-of-range throws `std::out_of_range`), then a hex round-trip
through `sscanf("%p")` that preserves the value on LP64. -/
def Address_token_to_pointer (v : List Char) : Except PErr Nat :=
  if digits_to_nat v ≤ ULONG_MAX then .ok (digits_to_nat v) else .error .range

/-! ## Recursive-descent parser (configuration.cpp, `Configuration::Parse`)

Thrown errors carry the `Configuration` object's state at the moment of
the throw (the C++ object keeps whatever had been stored so far). -/

/-- Parser results: remaining input and the stored configuration, or a
thrown error together with the object state at the throw. -/
abbrev PR := Except (PErr × Configuration) (List Char × Configuration)

/-- `Configuration::Parse_init`: the `CIRC = {` preamble. -/
def parse_init (l : List Char) : Except PErr (List Char) :=
  match test_next_token_type .Magic l with
  | .error e => .error e
  | .ok (_, l1) =>
    match test_next_token_type .Op_equals l1 with
    | .error e => .error e
    | .ok (_, l2) =>
      match test_next_token_type .Br_curly_begin l2 with
      | .error e => .error e
      | .ok (_, l3) => .ok l3

/-- `Configuration::Parse_file_name`: `: "name"`; the stored name strips
the quotes (`substr(1, length()-2)`). -/
def parse_file_name (l : List Char) (cfg : Configuration) : PR :=
  match test_next_token_type .Op_colon l with
  | .error e => .error (e, cfg)
  | .ok (_, l1) =>
    match test_next_token_type .Text_value l1 with
    | .error e => .error (e, cfg)
    | .ok (v, l2) =>
      .ok (l2, { cfg with trace_file_name := (v.drop 1).dropLast })

/-- `Configuration::Parse_storage_size`: `: number`, converted by
`std::stoul` (whose `std::out_of_range` escapes `Parse`). -/
def parse_storage_size (l : List Char) (cfg : Configuration) : PR :=
  match test_next_token_type .Op_colon l with
  | .error e => .error (e, cfg)
  | .ok (_, l1) =>
    match test_next_token_type .Number_value l1 with
    | .error e => .error (e, cfg)
    | .ok (v, l2) =>
      match stoul v with
      | .error e => .error (e, cfg)
      | .ok n => .ok (l2, { cfg with instr_data_init_len := n })

/-- `Configuration::Parse_direct_output`: `: bool`; the token value
`"false"` stores `false`, anything else (i.e. `"true"`) stores `true`. -/
def parse_direct_output (l : List Char) (cfg : Configuration) : PR :=
  match test_next_token_type .Op_colon l with
  | .error e => .error (e, cfg)
  | .ok (_, l1) =>
    match test_next_token_type .Bool_value l1 with
    | .error e => .error (e, cfg)
    | .ok (v, l2) =>
      if v = "false".data then
        .ok (l2, { cfg with use_direct_file_output := false })
      else
        .ok (l2, { cfg with use_direct_file_output := true })

/-- The collection-traversal loop of `Configuration::Parse_filter`:
`address, address, ... ]`. Every listed address is written to the policy
table unconditionally (`func_config[func_p] = Config_details(true)`).
The loop recurses on an explicit iteration bound `fuel`; every iteration
consumes at least one input character, so the bound `l.length + 1` used by
`parse_filter_loop` is never exhausted (`parse_filter_loop_f_irrel`), and
the `fuel = 0` branch is dead code. -/
def parse_filter_loop_f : Nat → List Char → Configuration → PR
  | 0, _, cfg => .error (.syn, cfg)
  | fuel + 1, l, cfg =>
    match test_next_token_type .Number_value l with
    | .error e => .error (e, cfg)
    | .ok (v, l1) =>
      match Address_token_to_pointer v with
      | .error e => .error (e, cfg)
      | .ok a =>
        let cfg1 := { cfg with
          func_config := fcSet cfg.func_config a filtered_details }
        match next_token l1 with
        | .error e => .error (e, cfg1)
        | .ok (t, _, l2) =>
          if t = .Br_square_end then .ok (l2, cfg1)
          else if t = .Comma then parse_filter_loop_f fuel l2 cfg1
          else .error (.syn, cfg1)

/-- The `Parse_filter` collection loop with its sufficient iteration
bound. -/
def parse_filter_loop (l : List Char) (cfg : Configuration) : PR :=
  parse_filter_loop_f (l.length + 1) l cfg

/-- `Configuration::Parse_filter`: `: [` then the address list. -/
def parse_filter (l : List Char) (cfg : Configuration) : PR :=
  match test_next_token_type .Op_colon l with
  | .error e => .error (e, cfg)
  | .ok (_, l1) =>
    match test_next_token_type .Br_square_begin l1 with
    | .error e => .error (e, cfg)
    | .ok (_, l2) => parse_filter_loop l2 cfg

/-- The policy-table effect of one `{ "func": a, "sample": n }` record in
`Configuration::Parse_sample`: insert a sampling record only if the
function has no configuration record yet, and only for a ratio above 1;
the inserted record is `Config_details(false, true, n - 1, n)`. -/
def sample_entry_update (cfg : Configuration) (a : Nat) (n : Int) :
    Configuration :=
  match fcFind cfg.func_config a with
  | some _ => cfg
  | none =>
    if n > 1 then
      { cfg with func_config := fcSet cfg.func_config a ⟨false, true, n - 1, n⟩ }
    else cfg

/-- The collection-traversal loop of `Configuration::Parse_sample`:
`{ "func" : address , "sample" : number } , ... ]`. The sample count is
converted by `std::stoi` (whose `std::out_of_range` escapes `Parse`).
Fueled like `parse_filter_loop_f`; the bound is never exhausted
(`parse_sample_loop_f_irrel`). -/
def parse_sample_loop_f : Nat → List Char → Configuration → PR
  | 0, _, cfg => .error (.syn, cfg)
  | fuel + 1, l, cfg =>
    match test_next_token_type .Br_curly_begin l with
    | .error e => .error (e, cfg)
    | .ok (_, l1) =>
      match test_next_token_type .Text_value l1 with
      | .error e => .error (e, cfg)
      | .ok (v1, l2) =>
        if v1 = "\"func\"".data then
          match test_next_token_type .Op_colon l2 with
          | .error e => .error (e, cfg)
          | .ok (_, l3) =>
            match test_next_token_type .Number_value l3 with
            | .error e => .error (e, cfg)
            | .ok (v2, l4) =>
              match Address_token_to_pointer v2 with
              | .error e => .error (e, cfg)
              | .ok a =>
                match test_next_token_type .Comma l4 with
                | .error e => .error (e, cfg)
                | .ok (_, l5) =>
                  match test_next_token_type .Text_value l5 with
                  | .error e => .error (e, cfg)
                  | .ok (v3, l6) =>
                    if v3 = "\"sample\"".data then
                      match test_next_token_type .Op_colon l6 with
                      | .error e => .error (e, cfg)
                      | .ok (_, l7) =>
                        match test_next_token_type .Number_value l7 with
                        | .error e => .error (e, cfg)
                        | .ok (v4, l8) =>
                          match stoi v4 with
                          | .error e => .error (e, cfg)
                          | .ok n =>
                            let cfg1 := sample_entry_update cfg a n
                            match test_next_token_type .Br_curly_end l8 with
                            | .error e => .error (e, cfg1)
                            | .ok (_, l9) =>
                              match next_token l9 with
                              | .error e => .error (e, cfg1)
                              | .ok (t, _, l10) =>
                                if t = .Br_square_end then .ok (l10, cfg1)
                                else if t = .Comma then
                                  parse_sample_loop_f fuel l10 cfg1
                                else .error (.syn, cfg1)
                    else .error (.syn, cfg)
                else .error (.syn, cfg)

/-- The `Parse_sample` collection loop with its sufficient iteration
bound. -/
def parse_sample_loop (l : List Char) (cfg : Configuration) : PR :=
  parse_sample_loop_f (l.length + 1) l cfg

/-- `Configuration::Parse_sample`: `: [` then the record list. -/
def parse_sample (l : List Char) (cfg : Configuration) : PR :=
  match test_next_token_type .Op_colon l with
  | .error e => .error (e, cfg)
  | .ok (_, l1) =>
    match test_next_token_type .Br_square_begin l1 with
    | .error e => .error (e, cfg)
    | .ok (_, l2) => parse_sample_loop l2 cfg

/-- `Configuration::Already_parsed_check` over the `configuration_parsed`
array (indices: 0 file name, 1 storage size, 2 direct output, 3 filter,
4 sampling): a second occurrence of a section throws
`Conf_file_syntax_exception`, otherwise the section is marked parsed. -/
def already_parsed_check (flags : List Bool) (i : Nat) :
    Except PErr (List Bool) :=
  if flags.getD i false then .error .syn else .ok (flags.set i true)

/-- One iteration body of `Parse`'s section loop: dispatch on the section
keyword (`v` is the already-read `Text_value` token), run the
duplicate-section check and the section parser. An unknown section keyword
throws `Conf_file_syntax_exception`. -/
def parse_one_section (v l : List Char) (flags : List Bool)
    (cfg : Configuration) :
    Except (PErr × Configuration) (List Bool × List Char × Configuration) :=
  if v = "\"internal_data_filename\"".data then
    match already_parsed_check flags 0 with
    | .error e => .error (e, cfg)
    | .ok flags1 =>
      match parse_file_name l cfg with
      | .error ec => .error ec
      | .ok (l1, cfg1) => .ok (flags1, l1, cfg1)
  else if v = "\"internal_storage_size\"".data then
    match already_parsed_check flags 1 with
    | .error e => .error (e, cfg)
    | .ok flags1 =>
      match parse_storage_size l cfg with
      | .error ec => .error ec
      | .ok (l1, cfg1) => .ok (flags1, l1, cfg1)
  else if v = "\"internal_direct_output\"".data then
    match already_parsed_check flags 2 with
    | .error e => .error (e, cfg)
    | .ok flags1 =>
      match parse_direct_output l cfg with
      | .error ec => .error ec
      | .ok (l1, cfg1) => .ok (flags1, l1, cfg1)
  else if v = "\"runtime_filter\"".data then
    match already_parsed_check flags 3 with
    | .error e => .error (e, cfg)
    | .ok flags1 =>
      match parse_filter l cfg with
      | .error ec => .error ec
      | .ok (l1, cfg1) => .ok (flags1, l1, cfg1)
  else if v = "\"sampling\"".data then
    match already_parsed_check flags 4 with
    | .error e => .error (e, cfg)
    | .ok flags1 =>
      match parse_sample l cfg with
      | .error ec => .error ec
      | .ok (l1, cfg1) => .ok (flags1, l1, cfg1)
  else .error (.syn, cfg)

/-- The section loop of `Configuration::Parse`: parse one section, then
either a closing `}` ends the loop or a `,` continues it. Fueled like the
collection loops; each iteration consumes at least one character
(`parse_one_section` never grows the input), so the bound `l.length + 1`
used by `parse_section_loop` is never exhausted
(`parse_section_loop_f_irrel`). -/
def parse_section_loop_f : Nat → List Char → List Bool → Configuration → PR
  | 0, _, _, cfg => .error (.syn, cfg)
  | fuel + 1, l, flags, cfg =>
    match test_next_token_type .Text_value l with
    | .error e => .error (e, cfg)
    | .ok (v, l1) =>
      match parse_one_section v l1 flags cfg with
      | .error ec => .error ec
      | .ok (flags1, l2, cfg1) =>
        match next_token l2 with
        | .error e => .error (e, cfg1)
        | .ok (t, _, l3) =>
          if t = .Br_curly_end then .ok (l3, cfg1)
          else if t = .Comma then parse_section_loop_f fuel l3 flags1 cfg1
          else .error (.syn, cfg1)

/-- The `Parse` section loop with its sufficient iteration bound. -/
def parse_section_loop (l : List Char) (flags : List Bool)
    (cfg : Configuration) : PR :=
  parse_section_loop_f (l.length + 1) l flags cfg

/-- The body of `Configuration::Parse` after `Load_file`: the `CIRC = {`
preamble, the section loop, and the final end-of-input check. On success
the whole input has been consumed. Errors carry the object state at the
moment of the throw; before the preamble completes that state is the
constructor state. -/
def ParseFrom (l : List Char) : PR :=
  match parse_init l with
  | .error e => .error (e, initConfiguration)
  | .ok l1 =>
    match parse_section_loop l1 (List.replicate 5 false) initConfiguration with
    | .error ec => .error ec
    | .ok (l2, cfg) =>
      match test_next_token_type .File_end l2 with
      | .error e => .error (e, cfg)
      | .ok (_, l3) => .ok (l3, cfg)

/-- The observable result of `Configuration::Parse`:
* `ok cfg pos`: `Parse` returned 0; `pos` is the value of the
  function-local `static size_t position` lexer cursor of `Next_token`
  after the call (the cursor is a process-wide static, so it survives into
  any later `Parse` call in the same process);
* `errRet code cfg`: `Parse` caught `Conf_file_missing_exception` or
  `Conf_file_syntax_exception`, cleared `func_config`, and returned the
  nonzero `code` (the cursor value after a failed parse is left wherever
  lexing stopped; no claim observes it, so it is not tracked);
* `exn cfg`: a `std::out_of_range` from `std::stoul`/`stoi`/`stoull`
  escaped `Parse` uncaught (`Parse` never returns; `func_config` is *not*
  cleared). -/
inductive ParseOutcome where
  | ok (cfg : Configuration) (pos : Nat)
  | errRet (code : Nat) (cfg : Configuration)
  | exn (cfg : Configuration)
deriving DecidableEq, Repr

/-- `Configuration::Parse` on a fresh `Configuration` object: `file` is
the contents of `circ.conf` (`none` when the file is missing), `pos` the
value of `Next_token`'s static cursor at entry (0 only in the first
`Parse` call of the process; a later call resumes where the previous one
stopped, because the cursor is a function-local `static`). -/
def Parse (file : Option (List Char)) (pos : Nat) : ParseOutcome :=
  match file with
  | none => .errRet EXIT_ERR_CONFIG_FILE_OPEN
      { initConfiguration with func_config := [] }
  | some text =>
    match ParseFrom (text.drop pos) with
    | .ok (rest, cfg) => .ok cfg (text.length - rest.length)
    | .error (.syn, cfg) => .errRet EXIT_ERR_CONFIG_FILE_SYNTAX
        { cfg with func_config := [] }
    | .error (.range, cfg) => .exn cfg

/-! ## Structure-size side channel (profile_api.cpp)

Only the size stack is involved in the claims; stack frames are
address-sized identities (`Nat`), the top of the C++ `std::vector`
(`back()`) is the head of the embedded list. -/

/-- `Size_stack_record`: the frame identity recorded with a size. -/
structure Size_stack_record where
  stack_frame : Nat
  actual_size : Nat
deriving DecidableEq, Repr

/-- `_profapi_get_size_record`: pop and return the top record's size only
if its frame matches; otherwise return 0 and leave the stack unchanged. -/
def _profapi_get_size_record (stack_frame : Nat)
    (st : List Size_stack_record) : Nat × List Size_stack_record :=
  match st with
  | [] => (0, [])
  | r :: rest =>
    if stack_frame = r.stack_frame then (r.actual_size, rest)
    else (0, r :: rest)

/-- `_profapi_remove_size_record`: pop the top record only if its frame
matches. -/
def _profapi_remove_size_record (stack_frame : Nat)
    (st : List Size_stack_record) : List Size_stack_record :=
  match st with
  | [] => st
  | r :: rest => if stack_frame = r.stack_frame then rest else st

/-- `_profapi_clean_size_records`: pop records while the given frame is
`>=` the top record's frame (records "with same or lower stack address",
per the source comment). -/
def _profapi_clean_size_records (stack_frame : Nat) :
    List Size_stack_record → List Size_stack_record
  | [] => []
  | r :: rest =>
    if r.stack_frame ≤ stack_frame then _profapi_clean_size_records stack_frame rest
    else r :: rest

/-! ## Trace collector (profile.h / profile.cpp) -/

/-- `Trace_context_wrapper::max_records = 19998`. -/
def max_records : Nat := 19998

/-- `Instrument_data`: one instrumentation record (`action` is `'i'` for
enter, `'o'` for exit; timestamps are microsecond counts, `long long`). -/
structure Instrument_data where
  action : Char
  function_address : Nat
  now : Int
  struct_size : Nat
deriving DecidableEq, Repr

/-- The collector state: the configuration's policy table and output
mode, the `instr_data` buffer vector, the lines already written to the
trace log (kept as records; the log is append-only), the size stack of
profile_api.cpp, and the `trace_ready` static flag. -/
structure TraceState where
  func_config : FuncMap
  use_direct_file_output : Bool
  instr_data : List Instrument_data
  trace_log : List Instrument_data
  size_stack : List Size_stack_record
  trace_ready : Bool
deriving DecidableEq, Repr

/-- `Trace_context_wrapper::Print_vector_to_file`: append every buffered
record to the trace log in order, then clear the buffer. (The
file-unexpectedly-closed fatal exit is not modeled; no claim reaches
it.) -/
def Print_vector_to_file (s : TraceState) : TraceState :=
  { s with trace_log := s.trace_log ++ s.instr_data, instr_data := [] }

/-- `Trace_context_wrapper::Print_record_to_file`: write one record
directly to the trace log. -/
def Print_record_to_file (s : TraceState) (r : Instrument_data) :
    TraceState :=
  { s with trace_log := s.trace_log ++ [r] }

/-- The enter-side `Create_instrumentation_record(func, io)`: flush first
if the buffer has reached `max_records`, then either buffer the new
record (vector mode) or write it directly (direct mode). The timestamp is
read inside (modeled as the `now` argument); the record's size field is
the `Instrument_data` constructor default 0. -/
def Create_instrumentation_record_enter (s : TraceState) (func : Nat)
    (now : Int) : TraceState :=
  let s1 := if max_records ≤ s.instr_data.length then Print_vector_to_file s
    else s
  if s1.use_direct_file_output = false then
    { s1 with instr_data := s1.instr_data ++ [⟨'i', func, now, 0⟩] }
  else
    Print_record_to_file s1 ⟨'i', func, now, 0⟩

/-- The first half of the exit-side
`Create_instrumentation_record(func, io, now, size)`: buffer the record
(vector mode) or write it directly (direct mode). -/
def Create_instrumentation_record_exit_push (s : TraceState) (func : Nat)
    (now : Int) (size : Nat) : TraceState :=
  if s.use_direct_file_output = false then
    { s with instr_data := s.instr_data ++ [⟨'o', func, now, size⟩] }
  else
    Print_record_to_file s ⟨'o', func, now, size⟩

/-- The exit-side `Create_instrumentation_record(func, io, now, size)`:
store the record first, then flush if the buffer has reached
`max_records`. -/
def Create_instrumentation_record_exit (s : TraceState) (func : Nat)
    (now : Int) (size : Nat) : TraceState :=
  let s1 := Create_instrumentation_record_exit_push s func now size
  if max_records ≤ s1.instr_data.length then Print_vector_to_file s1 else s1

/-- `__cyg_profile_func_enter`: no-op unless `trace_ready`; filtered
functions are dropped; sampled functions increment `sample_current` (an
in-place mutation of the table entry) and are recorded only when the
incremented counter equals `sample_ratio`. -/
def cyg_profile_func_enter (func : Nat) (now : Int) (s : TraceState) :
    TraceState :=
  if s.trace_ready then
    match fcFind s.func_config func with
    | some d =>
      if d.is_filtered then s
      else if d.is_sampled then
        let d' := { d with sample_current := d.sample_current + 1 }
        let s' := { s with func_config := fcSet s.func_config func d' }
        if d'.sample_current ≠ d'.sample_ratio then s'
        else Create_instrumentation_record_enter s' func now
      else Create_instrumentation_record_enter s func now
    | none => Create_instrumentation_record_enter s func now
  else s

/-- The shared tail of `__cyg_profile_func_exit`: fetch the structure
size for the caller's frame from the size stack and create the exit
record. -/
def exit_record_tail (func frame : Nat) (now : Int) (s : TraceState) :
    TraceState :=
  let p := _profapi_get_size_record frame s.size_stack
  Create_instrumentation_record_exit { s with size_stack := p.2 } func now p.1

/-- `__cyg_profile_func_exit`: no-op unless `trace_ready`; filtered
functions are dropped before any side effect; for sampled functions a
below-ratio counter drops the record but still releases the pending size
record for this frame (`_profapi_remove_size_record`), an at-ratio
counter resets to `sample_init` and records. `frame` is
`__builtin_frame_address(1)`, `now` the timestamp read at entry. -/
def cyg_profile_func_exit (func frame : Nat) (now : Int) (s : TraceState) :
    TraceState :=
  if s.trace_ready then
    match fcFind s.func_config func with
    | some d =>
      if d.is_filtered then s
      else if d.is_sampled then
        if d.sample_current < d.sample_ratio then
          { s with size_stack := _profapi_remove_size_record frame s.size_stack }
        else
          let s' := { s with
            func_config :=
              fcSet s.func_config func { d with sample_current := sample_init } }
          exit_record_tail func frame now s'
      else exit_record_tail func frame now s
    | none => exit_record_tail func frame now s
  else s

/-- The storage-setup step of the `Trace_context_wrapper` constructor:
in vector mode, `reserve(instr_data_init_len)`; on `std::length_error`
retry once with `default_instr_data_init_len`; if that also fails, fall
back permanently to direct file output. `canReserve n` models whether
reserving capacity `n` succeeds. Returns the resulting
`use_direct_file_output` flag and the number of reserve attempts made. -/
def ctor_setup_storage (cfg : Configuration) (canReserve : Nat → Bool) :
    Bool × Nat :=
  if cfg.use_direct_file_output = false then
    if canReserve cfg.instr_data_init_len then (false, 1)
    else if canReserve default_instr_data_init_len then (false, 2)
    else (true, 2)
  else (cfg.use_direct_file_output, 0)

/-- The enter-side `Create_instrumentation_record` with the vector growth
made fallible: `alloc` tells whether `push_back` can grow the buffer.
The source wraps no handler around this `push_back`, so the failure
(`std::bad_alloc`) propagates out of `__cyg_profile_func_enter`
(modeled as `.error ()`). -/
def Create_instrumentation_record_enter_e (alloc : Bool) (s : TraceState)
    (func : Nat) (now : Int) : Except Unit TraceState :=
  let s1 := if max_records ≤ s.instr_data.length then Print_vector_to_file s
    else s
  if s1.use_direct_file_output = false then
    if alloc then .ok { s1 with instr_data := s1.instr_data ++ [⟨'i', func, now, 0⟩] }
    else .error ()
  else .ok (Print_record_to_file s1 ⟨'i', func, now, 0⟩)

/-! ## Event sequences over the collector -/

/-- One `Create_instrumentation_record` call, tagged with which of the
two overloads runs (the enter-side or the exit-side one). -/
inductive CEvent where
  | enterRec (func : Nat) (now : Int)
  | exitRec (func : Nat) (now : Int) (size : Nat)
deriving DecidableEq, Repr

/-- Apply one `Create_instrumentation_record` call to the state. -/
def applyCreate (s : TraceState) : CEvent → TraceState
  | .enterRec f t => Create_instrumentation_record_enter s f t
  | .exitRec f t sz => Create_instrumentation_record_exit s f t sz

/-- The record a `Create_instrumentation_record` call stores. -/
def recordOf : CEvent → Instrument_data
  | .enterRec f t => ⟨'i', f, t, 0⟩
  | .exitRec f t sz => ⟨'o', f, t, sz⟩

/-- A sequence of `Create_instrumentation_record` calls. -/
def runCreates (s : TraceState) (evs : List CEvent) : TraceState :=
  evs.foldl applyCreate s

/-- All records the collector has emitted so far: the log contents
followed by the still-buffered records (the final flush of the destructor
turns this into the log contents). -/
def emitted (s : TraceState) : List Instrument_data :=
  s.trace_log ++ s.instr_data

/-- Count of enter records for function `f` in a record list. -/
def countEnter (f : Nat) (l : List Instrument_data) : Nat :=
  (l.filter (fun r => r.action = 'i' && r.function_address = f)).length

/-- Count of exit records for function `f` in a record list. -/
def countExit (f : Nat) (l : List Instrument_data) : Nat :=
  (l.filter (fun r => r.action = 'o' && r.function_address = f)).length

/-- One complete enter/exit pair for `func` dispatched through the two
`__cyg_profile` entry points. -/
def sampled_pair (func frame : Nat) (tE tX : Int) (s : TraceState) :
    TraceState :=
  cyg_profile_func_exit func frame tX (cyg_profile_func_enter func tE s)

/-- `M` consecutive complete enter/exit pairs for `func` (pair `k` uses
timestamps `tE k` / `tX k` and caller frame `fr k`). -/
def run_pairs (func : Nat) (fr : Nat → Nat) (tE tX : Nat → Int) :
    Nat → TraceState → TraceState
  | 0, s => s
  | m + 1, s => sampled_pair func (fr m) (tE m) (tX m) (run_pairs func fr tE tX m s)

/-- The collector state right after startup for a parsed configuration
`cfg` (buffer and log empty, size stack empty, `trace_ready` set). -/
def startState (cfg : Configuration) : TraceState :=
  ⟨cfg.func_config, cfg.use_direct_file_output, [], [], [], true⟩

/-- Modelled from the spec: the sentence for C8 reads "`Clean(frame_id)`
pops all records whose frame identity is ≥ the given frame identity", as a
top-of-stack sweep; this is its direct transcription, to be compared with
`_profapi_clean_size_records` (which sweeps records whose frame is ≤ the
argument). -/
def clean_per_spec (stack_frame : Nat) (st : List Size_stack_record) :
    List Size_stack_record :=
  st.dropWhile (fun r => decide (stack_frame ≤ r.stack_frame))

/-- Add (or overwrite) the filter entry for `f` in the collector state's
policy table: exactly what a `runtime_filter` list entry for `f` does to
the table (`func_config[f] = Config_details(true)`). -/
def withFilterEntry (f : Nat) (s : TraceState) : TraceState :=
  { s with func_config := fcSet s.func_config f filtered_details }

/-- The `configuration_parsed` index a section keyword owns (the order of
the `Parse` dispatch and of the `section_*` constants in
configuration.h): 0 `internal_data_filename`, 1 `internal_storage_size`,
2 `internal_direct_output`, 3 `runtime_filter`, 4 `sampling`. -/
def section_keyword_index (v : List Char) : Option Nat :=
  if v = "\"internal_data_filename\"".data then some 0
  else if v = "\"internal_storage_size\"".data then some 1
  else if v = "\"internal_direct_output\"".data then some 2
  else if v = "\"runtime_filter\"".data then some 3
  else if v = "\"sampling\"".data then some 4
  else none

/-- The address list a successful `Parse_filter` collection loop reads:
the same token traversal as `parse_filter_loop_f`, collecting the
converted addresses instead of writing the policy table (used to state
which function identities are "listed in the runtime_filter section"). -/
def filter_addrs_f : Nat → List Char → Option (List Nat × List Char)
  | 0, _ => none
  | fuel + 1, l =>
    match test_next_token_type .Number_value l with
    | .error _ => none
    | .ok (v, l1) =>
      match Address_token_to_pointer v with
      | .error _ => none
      | .ok a =>
        match next_token l1 with
        | .error _ => none
        | .ok (t, _, l2) =>
          if t = .Br_square_end then some ([a], l2)
          else if t = .Comma then
            match filter_addrs_f fuel l2 with
            | none => none
            | some (as, r) => some (a :: as, r)
          else none

/-- `filter_addrs_f` with the iteration bound of `parse_filter_loop`. -/
def filter_addrs (l : List Char) : Option (List Nat × List Char) :=
  filter_addrs_f (l.length + 1) l

/-- A reservation oracle on which every growth attempt fails (models the
out-of-memory / capacity-limit condition). -/
def noReserve : Nat → Bool := fun _ => false

/-- The constant-zero timestamp stream (used to instantiate event runs on
concrete inputs). -/
def zeroI : Nat → Int := fun _ => 0

/-- The constant-zero frame stream. -/
def zeroN : Nat → Nat := fun _ => 0

/-- A state where a direct-output collector has nothing buffered (direct
mode never buffers, so this is invariant along every run; it makes the
emitted-record order well defined across both modes). -/
def mode_ok (s : TraceState) : Prop :=
  s.use_direct_file_output = true → s.instr_data = []

/-! ## Supporting lemmas -/

/-! ### Lexer consumption lemmas (needed to justify loop termination) -/

theorem lexText_le : ∀ (l acc v r : List Char),
    lexText l acc = .ok (v, r) → r.length ≤ l.length := by
  intro l
  induction l with
  | nil => intro acc v r h; simp [lexText] at h
  | cons c rest ih =>
    intro acc v r h
    rw [lexText] at h
    split at h
    · simp only [Except.ok.injEq, Prod.mk.injEq] at h
      rw [← h.2]; simp
    · exact le_trans (ih _ _ _ h) (by simp)

theorem lexNumber_le : ∀ (l acc v r : List Char),
    lexNumber l acc = .ok (v, r) → r.length ≤ l.length := by
  intro l
  induction l with
  | nil => intro acc v r h; simp [lexNumber] at h
  | cons c rest ih =>
    intro acc v r h
    rw [lexNumber] at h
    split at h
    · exact le_trans (ih _ _ _ h) (by simp)
    · simp only [Except.ok.injEq, Prod.mk.injEq] at h
      rw [← h.2]

theorem lexMagic_le : ∀ (l acc v r : List Char),
    lexMagic l acc = .ok (v, r) → r.length ≤ l.length := by
  intro l
  induction l with
  | nil => intro acc v r h; simp [lexMagic] at h
  | cons c rest ih =>
    intro acc v r h
    rw [lexMagic] at h
    split at h
    · exact le_trans (ih _ _ _ h) (by simp)
    · split at h
      · simp only [Except.ok.injEq, Prod.mk.injEq] at h
        rw [← h.2]
      · simp at h

theorem lexBool_le : ∀ (l acc v r : List Char),
    lexBool l acc = .ok (v, r) → r.length ≤ l.length := by
  intro l
  induction l with
  | nil => intro acc v r h; simp [lexBool] at h
  | cons c rest ih =>
    intro acc v r h
    rw [lexBool] at h
    split at h
    · exact le_trans (ih _ _ _ h) (by simp)
    · split at h
      · simp only [Except.ok.injEq, Prod.mk.injEq] at h
        rw [← h.2]
      · simp at h

theorem init_token_le (c : Char) (rest : List Char) (t : Token_t)
    (v r : List Char) (h : init_token c rest = .ok (t, v, r)) :
    r.length ≤ rest.length := by
  rw [init_token] at h
  by_cases h1 : c = '='
  · rw [if_pos h1] at h
    simp only [Except.ok.injEq, Prod.mk.injEq] at h; rw [← h.2.2]
  rw [if_neg h1] at h
  by_cases h2 : c = ':'
  · rw [if_pos h2] at h
    simp only [Except.ok.injEq, Prod.mk.injEq] at h; rw [← h.2.2]
  rw [if_neg h2] at h
  by_cases h3 : c = '['
  · rw [if_pos h3] at h
    simp only [Except.ok.injEq, Prod.mk.injEq] at h; rw [← h.2.2]
  rw [if_neg h3] at h
  by_cases h4 : c = ']'
  · rw [if_pos h4] at h
    simp only [Except.ok.injEq, Prod.mk.injEq] at h; rw [← h.2.2]
  rw [if_neg h4] at h
  by_cases h5 : c = '{'
  · rw [if_pos h5] at h
    simp only [Except.ok.injEq, Prod.mk.injEq] at h; rw [← h.2.2]
  rw [if_neg h5] at h
  by_cases h6 : c = '}'
  · rw [if_pos h6] at h
    simp only [Except.ok.injEq, Prod.mk.injEq] at h; rw [← h.2.2]
  rw [if_neg h6] at h
  by_cases h7 : c = ','
  · rw [if_pos h7] at h
    simp only [Except.ok.injEq, Prod.mk.injEq] at h; rw [← h.2.2]
  rw [if_neg h7] at h
  by_cases h8 : c = '"'
  · rw [if_pos h8] at h
    split at h
    · simp at h
    · simp only [Except.ok.injEq, Prod.mk.injEq] at h
      rw [← h.2.2]
      exact lexText_le _ _ _ _ (by assumption)
  rw [if_neg h8] at h
  by_cases h9 : c = 'C'
  · rw [if_pos h9] at h
    split at h
    · simp at h
    · simp only [Except.ok.injEq, Prod.mk.injEq] at h
      rw [← h.2.2]
      exact lexMagic_le _ _ _ _ (by assumption)
  rw [if_neg h9] at h
  by_cases h10 : c.isDigit
  · rw [if_pos h10] at h
    split at h
    · simp at h
    · simp only [Except.ok.injEq, Prod.mk.injEq] at h
      rw [← h.2.2]
      exact lexNumber_le _ _ _ _ (by assumption)
  rw [if_neg h10] at h
  by_cases h11 : c = 'f' || c = 't'
  · rw [if_pos h11] at h
    split at h
    · simp at h
    · simp only [Except.ok.injEq, Prod.mk.injEq] at h
      rw [← h.2.2]
      exact lexBool_le _ _ _ _ (by assumption)
  rw [if_neg h11] at h
  simp at h

/-- The `Init`-state dispatch never produces `File_end` (only exhausted
input does). -/
theorem init_token_ne_File_end (c : Char) (rest : List Char) (t : Token_t)
    (v r : List Char) (h : init_token c rest = .ok (t, v, r)) :
    t ≠ Token_t.File_end := by
  rw [init_token] at h
  by_cases h1 : c = '='
  · rw [if_pos h1] at h
    simp only [Except.ok.injEq, Prod.mk.injEq] at h
    rw [← h.1]; simp
  rw [if_neg h1] at h
  by_cases h2 : c = ':'
  · rw [if_pos h2] at h
    simp only [Except.ok.injEq, Prod.mk.injEq] at h
    rw [← h.1]; simp
  rw [if_neg h2] at h
  by_cases h3 : c = '['
  · rw [if_pos h3] at h
    simp only [Except.ok.injEq, Prod.mk.injEq] at h
    rw [← h.1]; simp
  rw [if_neg h3] at h
  by_cases h4 : c = ']'
  · rw [if_pos h4] at h
    simp only [Except.ok.injEq, Prod.mk.injEq] at h
    rw [← h.1]; simp
  rw [if_neg h4] at h
  by_cases h5 : c = '{'
  · rw [if_pos h5] at h
    simp only [Except.ok.injEq, Prod.mk.injEq] at h
    rw [← h.1]; simp
  rw [if_neg h5] at h
  by_cases h6 : c = '}'
  · rw [if_pos h6] at h
    simp only [Except.ok.injEq, Prod.mk.injEq] at h
    rw [← h.1]; simp
  rw [if_neg h6] at h
  by_cases h7 : c = ','
  · rw [if_pos h7] at h
    simp only [Except.ok.injEq, Prod.mk.injEq] at h
    rw [← h.1]; simp
  rw [if_neg h7] at h
  by_cases h8 : c = '"'
  · rw [if_pos h8] at h
    split at h
    · simp at h
    · simp only [Except.ok.injEq, Prod.mk.injEq] at h
      rw [← h.1]; simp
  rw [if_neg h8] at h
  by_cases h9 : c = 'C'
  · rw [if_pos h9] at h
    split at h
    · simp at h
    · simp only [Except.ok.injEq, Prod.mk.injEq] at h
      rw [← h.1]; simp
  rw [if_neg h9] at h
  by_cases h10 : c.isDigit
  · rw [if_pos h10] at h
    split at h
    · simp at h
    · simp only [Except.ok.injEq, Prod.mk.injEq] at h
      rw [← h.1]; simp
  rw [if_neg h10] at h
  by_cases h11 : c = 'f' || c = 't'
  · rw [if_pos h11] at h
    split at h
    · simp at h
    · simp only [Except.ok.injEq, Prod.mk.injEq] at h
      rw [← h.1]; simp
  rw [if_neg h11] at h
  simp at h

/-- A `File_end` token is produced only with the input exhausted. -/
theorem next_token_File_end : ∀ (l v r : List Char),
    next_token l = .ok (Token_t.File_end, v, r) → r = [] := by
  intro l
  induction l with
  | nil =>
    intro v r h
    simp only [next_token, Except.ok.injEq, Prod.mk.injEq] at h
    exact h.2.2.symm
  | cons c rest ih =>
    intro v r h
    rw [next_token] at h
    split at h
    · exact ih _ _ h
    · exact absurd rfl (init_token_ne_File_end c rest _ _ _ h)

theorem test_next_File_end_nil (l v r : List Char)
    (h : test_next_token_type .File_end l = .ok (v, r)) : r = [] := by
  rw [test_next_token_type] at h
  split at h
  · simp at h
  · split at h
    · rename_i heq ht
      simp only [Except.ok.injEq, Prod.mk.injEq] at h
      obtain ⟨_, hr⟩ := h
      subst hr
      exact next_token_File_end _ _ _ (ht ▸ heq)
    · simp at h

/-- A successfully lexed token either is `File_end` with nothing left, or
consumed at least one character. -/
theorem next_token_shrink : ∀ (l : List Char) (t : Token_t) (v r : List Char),
    next_token l = .ok (t, v, r) →
    (t = Token_t.File_end ∧ r = []) ∨ r.length < l.length := by
  intro l
  induction l with
  | nil =>
    intro t v r h
    simp only [next_token, Except.ok.injEq, Prod.mk.injEq] at h
    exact Or.inl ⟨h.1.symm, h.2.2.symm⟩
  | cons c rest ih =>
    intro t v r h
    rw [next_token] at h
    split at h
    · rcases ih _ _ _ h with ⟨h1, h2⟩ | hlt
      · exact Or.inl ⟨h1, h2⟩
      · exact Or.inr (lt_trans hlt (by simp))
    · exact Or.inr (Nat.lt_succ_of_le (init_token_le _ _ _ _ _ h))

theorem next_token_lt (l : List Char) (t : Token_t) (v r : List Char)
    (h : next_token l = .ok (t, v, r)) (hne : t ≠ Token_t.File_end) :
    r.length < l.length := by
  rcases next_token_shrink l t v r h with ⟨h1, _⟩ | hlt
  · exact absurd h1 hne
  · exact hlt

theorem next_token_le (l : List Char) (t : Token_t) (v r : List Char)
    (h : next_token l = .ok (t, v, r)) : r.length ≤ l.length := by
  rcases next_token_shrink l t v r h with ⟨_, h2⟩ | hlt
  · rw [h2]; simp
  · exact le_of_lt hlt

theorem test_next_lt (e : Token_t) (l v r : List Char)
    (h : test_next_token_type e l = .ok (v, r)) (hne : e ≠ Token_t.File_end) :
    r.length < l.length := by
  rw [test_next_token_type] at h
  split at h
  · simp at h
  · split at h
    · simp only [Except.ok.injEq, Prod.mk.injEq] at h
      obtain ⟨hv, hr⟩ := h
      subst hv; subst hr
      rename_i heq ht
      exact next_token_lt l _ _ _ heq (ht ▸ hne)
    · simp at h

theorem test_next_le (e : Token_t) (l v r : List Char)
    (h : test_next_token_type e l = .ok (v, r)) : r.length ≤ l.length := by
  rw [test_next_token_type] at h
  split at h
  · simp at h
  · split at h
    · simp only [Except.ok.injEq, Prod.mk.injEq] at h
      obtain ⟨hv, hr⟩ := h
      subst hv; subst hr
      rename_i heq _
      exact next_token_le l _ _ _ heq
    · simp at h

/-! ### Parser consumption lemmas -/

theorem parse_file_name_le (l : List Char) (cfg : Configuration)
    (r : List Char) (cfg' : Configuration)
    (h : parse_file_name l cfg = .ok (r, cfg')) : r.length ≤ l.length := by
  rw [parse_file_name] at h
  split at h
  · simp at h
  · rename_i heq1
    split at h
    · simp at h
    · rename_i heq2
      simp only [Except.ok.injEq, Prod.mk.injEq] at h
      obtain ⟨hr, _⟩ := h
      subst hr
      exact le_trans (test_next_le _ _ _ _ heq2) (test_next_le _ _ _ _ heq1)

theorem parse_storage_size_le (l : List Char) (cfg : Configuration)
    (r : List Char) (cfg' : Configuration)
    (h : parse_storage_size l cfg = .ok (r, cfg')) : r.length ≤ l.length := by
  rw [parse_storage_size] at h
  split at h
  · simp at h
  · rename_i heq1
    split at h
    · simp at h
    · rename_i heq2
      split at h
      · simp at h
      · simp only [Except.ok.injEq, Prod.mk.injEq] at h
        obtain ⟨hr, _⟩ := h
        subst hr
        exact le_trans (test_next_le _ _ _ _ heq2) (test_next_le _ _ _ _ heq1)

theorem parse_direct_output_le (l : List Char) (cfg : Configuration)
    (r : List Char) (cfg' : Configuration)
    (h : parse_direct_output l cfg = .ok (r, cfg')) : r.length ≤ l.length := by
  rw [parse_direct_output] at h
  split at h
  · simp at h
  · rename_i heq1
    split at h
    · simp at h
    · rename_i heq2
      have hle := le_trans (test_next_le _ _ _ _ heq2) (test_next_le _ _ _ _ heq1)
      split at h <;>
        · simp only [Except.ok.injEq, Prod.mk.injEq] at h
          obtain ⟨hr, _⟩ := h
          subst hr
          exact hle

theorem parse_filter_loop_f_le : ∀ (fuel : Nat) (l : List Char)
    (cfg : Configuration) (r : List Char) (cfg' : Configuration),
    parse_filter_loop_f fuel l cfg = .ok (r, cfg') → r.length ≤ l.length := by
  intro fuel
  induction fuel with
  | zero => intro l cfg r cfg' h; simp [parse_filter_loop_f] at h
  | succ fuel ih =>
    intro l cfg r cfg' h
    rw [parse_filter_loop_f] at h
    split at h
    · simp at h
    · rename_i v l1 heq1
      have e1 : l1.length < l.length := test_next_lt _ _ _ _ heq1 (by simp)
      split at h
      · simp at h
      · rename_i a heq2
        split at h
        · simp at h
        · rename_i t fst l2 heq3
          split at h
          · rename_i hbr
            have e2 : l2.length < l1.length :=
              next_token_lt _ _ _ _ heq3 (by rw [hbr]; simp)
            simp only [Except.ok.injEq, Prod.mk.injEq] at h
            obtain ⟨hr, _⟩ := h
            subst hr
            omega
          · split at h
            · rename_i hcomma
              have e2 : l2.length < l1.length :=
                next_token_lt _ _ _ _ heq3 (by rw [hcomma]; simp)
              have := ih l2 _ _ _ h
              omega
            · simp at h

theorem parse_filter_loop_le (l : List Char) (cfg : Configuration)
    (r : List Char) (cfg' : Configuration)
    (h : parse_filter_loop l cfg = .ok (r, cfg')) : r.length ≤ l.length :=
  parse_filter_loop_f_le _ l cfg r cfg' h

/-- The iteration bound of the filter-list loop is irrelevant as long as
it exceeds the input length: every iteration consumes at least one
character. In particular the bound `l.length + 1` used by
`parse_filter_loop` is sufficient, so its `fuel = 0` branch is dead. -/
theorem parse_filter_loop_f_irrel : ∀ (f1 f2 : Nat) (l : List Char)
    (cfg : Configuration), l.length < f1 → l.length < f2 →
    parse_filter_loop_f f1 l cfg = parse_filter_loop_f f2 l cfg := by
  intro f1
  induction f1 with
  | zero => intro f2 l cfg h1 h2; omega
  | succ a ih =>
    intro f2 l cfg h1 h2
    match f2 with
    | 0 => omega
    | b + 1 =>
      rw [parse_filter_loop_f]
      conv_rhs => rw [parse_filter_loop_f]
      cases heq1 : test_next_token_type Token_t.Number_value l with
      | error e => simp only [heq1]
      | ok p =>
        obtain ⟨v, l1⟩ := p
        have e1 : l1.length < l.length := test_next_lt _ _ _ _ heq1 (by simp)
        simp only [heq1]
        cases heq2 : Address_token_to_pointer v with
        | error e => simp only [heq2]
        | ok addr =>
          simp only [heq2]
          cases heq3 : next_token l1 with
          | error e => simp only [heq3]
          | ok trip =>
            obtain ⟨t, fst, l2⟩ := trip
            simp only [heq3]
            by_cases hbr : t = Token_t.Br_square_end
            · simp only [if_pos hbr]
            · simp only [if_neg hbr]
              by_cases hcomma : t = Token_t.Comma
              · simp only [if_pos hcomma]
                have e2 : l2.length < l1.length :=
                  next_token_lt _ _ _ _ heq3 (by rw [hcomma]; simp)
                exact ih b l2 _ (by omega) (by omega)
              · simp only [if_neg hcomma]

theorem parse_sample_loop_f_le : ∀ (fuel : Nat) (l : List Char)
    (cfg : Configuration) (r : List Char) (cfg' : Configuration),
    parse_sample_loop_f fuel l cfg = .ok (r, cfg') → r.length ≤ l.length := by
  intro fuel
  induction fuel with
  | zero => intro l cfg r cfg' h; simp [parse_sample_loop_f] at h
  | succ fuel ih =>
    intro l cfg r cfg' h
    rw [parse_sample_loop_f] at h
    split at h
    · simp at h
    · rename_i fst1 l1 heq1
      have e1 : l1.length < l.length := test_next_lt _ _ _ _ heq1 (by simp)
      split at h
      · simp at h
      · rename_i v1 l2 heq2
        have e2 : l2.length < l1.length := test_next_lt _ _ _ _ heq2 (by simp)
        split at h
        · split at h
          · simp at h
          · rename_i fst3 l3 heq3
            have e3 : l3.length < l2.length :=
              test_next_lt _ _ _ _ heq3 (by simp)
            split at h
            · simp at h
            · rename_i v2 l4 heq4
              have e4 : l4.length < l3.length :=
                test_next_lt _ _ _ _ heq4 (by simp)
              split at h
              · simp at h
              · rename_i a heqa
                split at h
                · simp at h
                · rename_i fst5 l5 heq5
                  have e5 : l5.length < l4.length :=
                    test_next_lt _ _ _ _ heq5 (by simp)
                  split at h
                  · simp at h
                  · rename_i v3 l6 heq6
                    have e6 : l6.length < l5.length :=
                      test_next_lt _ _ _ _ heq6 (by simp)
                    split at h
                    · split at h
                      · simp at h
                      · rename_i fst7 l7 heq7
                        have e7 : l7.length < l6.length :=
                          test_next_lt _ _ _ _ heq7 (by simp)
                        split at h
                        · simp at h
                        · rename_i v4 l8 heq8
                          have e8 : l8.length < l7.length :=
                            test_next_lt _ _ _ _ heq8 (by simp)
                          split at h
                          · simp at h
                          · rename_i n heqn
                            split at h
                            · simp at h
                            · rename_i fst9 l9 heq9
                              have e9 : l9.length < l8.length :=
                                test_next_lt _ _ _ _ heq9 (by simp)
                              split at h
                              · simp at h
                              · rename_i t fst10 l10 heq10
                                split at h
                                · rename_i hbr
                                  have e10 : l10.length < l9.length :=
                                    next_token_lt _ _ _ _ heq10
                                      (by rw [hbr]; simp)
                                  simp only [Except.ok.injEq,
                                    Prod.mk.injEq] at h
                                  obtain ⟨hr, _⟩ := h
                                  subst hr
                                  omega
                                · split at h
                                  · rename_i hcomma
                                    have e10 : l10.length < l9.length :=
                                      next_token_lt _ _ _ _ heq10
                                        (by rw [hcomma]; simp)
                                    have := ih l10 _ _ _ h
                                    omega
                                  · simp at h
                    · simp at h
        · simp at h

theorem parse_sample_loop_le (l : List Char) (cfg : Configuration)
    (r : List Char) (cfg' : Configuration)
    (h : parse_sample_loop l cfg = .ok (r, cfg')) : r.length ≤ l.length :=
  parse_sample_loop_f_le _ l cfg r cfg' h

/-- Like `parse_filter_loop_f_irrel`: the iteration bound of the sampling
collection loop is irrelevant as long as it exceeds the input length, so
the bound `l.length + 1` used by `parse_sample_loop` is sufficient. -/
theorem parse_sample_loop_f_irrel : ∀ (f1 f2 : Nat) (l : List Char)
    (cfg : Configuration), l.length < f1 → l.length < f2 →
    parse_sample_loop_f f1 l cfg = parse_sample_loop_f f2 l cfg := by
  intro f1
  induction f1 with
  | zero => intro f2 l cfg h1 h2; omega
  | succ a ih =>
    intro f2 l cfg h1 h2
    match f2 with
    | 0 => omega
    | b + 1 =>
      rw [parse_sample_loop_f]
      conv_rhs => rw [parse_sample_loop_f]
      cases heq1 : test_next_token_type Token_t.Br_curly_begin l with
      | error e => simp only [heq1]
      | ok p1 =>
        obtain ⟨fst1, l1⟩ := p1
        have e1 : l1.length < l.length := test_next_lt _ _ _ _ heq1 (by simp)
        simp only [heq1]
        cases heq2 : test_next_token_type Token_t.Text_value l1 with
        | error e => simp only [heq2]
        | ok p2 =>
          obtain ⟨v1, l2⟩ := p2
          have e2 : l2.length < l1.length :=
            test_next_lt _ _ _ _ heq2 (by simp)
          simp only [heq2]
          by_cases hv1 : v1 = "\"func\"".data
          · simp only [if_pos hv1]
            cases heq3 : test_next_token_type Token_t.Op_colon l2 with
            | error e => simp only [heq3]
            | ok p3 =>
              obtain ⟨fst3, l3⟩ := p3
              have e3 : l3.length < l2.length :=
                test_next_lt _ _ _ _ heq3 (by simp)
              simp only [heq3]
              cases heq4 : test_next_token_type Token_t.Number_value l3 with
              | error e => simp only [heq4]
              | ok p4 =>
                obtain ⟨v2, l4⟩ := p4
                have e4 : l4.length < l3.length :=
                  test_next_lt _ _ _ _ heq4 (by simp)
                simp only [heq4]
                cases heqa : Address_token_to_pointer v2 with
                | error e => simp only [heqa]
                | ok addr =>
                  simp only [heqa]
                  cases heq5 : test_next_token_type Token_t.Comma l4 with
                  | error e => simp only [heq5]
                  | ok p5 =>
                    obtain ⟨fst5, l5⟩ := p5
                    have e5 : l5.length < l4.length :=
                      test_next_lt _ _ _ _ heq5 (by simp)
                    simp only [heq5]
                    cases heq6 : test_next_token_type Token_t.Text_value l5 with
                    | error e => simp only [heq6]
                    | ok p6 =>
                      obtain ⟨v3, l6⟩ := p6
                      have e6 : l6.length < l5.length :=
                        test_next_lt _ _ _ _ heq6 (by simp)
                      simp only [heq6]
                      by_cases hv3 : v3 = "\"sample\"".data
                      · simp only [if_pos hv3]
                        cases heq7 : test_next_token_type Token_t.Op_colon l6 with
                        | error e => simp only [heq7]
                        | ok p7 =>
                          obtain ⟨fst7, l7⟩ := p7
                          have e7 : l7.length < l6.length :=
                            test_next_lt _ _ _ _ heq7 (by simp)
                          simp only [heq7]
                          cases heq8 : test_next_token_type Token_t.Number_value l7 with
                          | error e => simp only [heq8]
                          | ok p8 =>
                            obtain ⟨v4, l8⟩ := p8
                            have e8 : l8.length < l7.length :=
                              test_next_lt _ _ _ _ heq8 (by simp)
                            simp only [heq8]
                            cases heqn : stoi v4 with
                            | error e => simp only [heqn]
                            | ok n =>
                              simp only [heqn]
                              cases heq9 : test_next_token_type
                                  Token_t.Br_curly_end l8 with
                              | error e => simp only [heq9]
                              | ok p9 =>
                                obtain ⟨fst9, l9⟩ := p9
                                have e9 : l9.length < l8.length :=
                                  test_next_lt _ _ _ _ heq9 (by simp)
                                simp only [heq9]
                                cases heq10 : next_token l9 with
                                | error e => simp only [heq10]
                                | ok trip =>
                                  obtain ⟨t, fst10, l10⟩ := trip
                                  simp only [heq10]
                                  by_cases hbr : t = Token_t.Br_square_end
                                  · simp only [if_pos hbr]
                                  · simp only [if_neg hbr]
                                    by_cases hcomma : t = Token_t.Comma
                                    · simp only [if_pos hcomma]
                                      have e10 : l10.length < l9.length :=
                                        next_token_lt _ _ _ _ heq10
                                          (by rw [hcomma]; simp)
                                      exact ih b l10 _ (by omega) (by omega)
                                    · simp only [if_neg hcomma]
                      · simp only [if_neg hv3]
          · simp only [if_neg hv1]

theorem parse_filter_le (l : List Char) (cfg : Configuration)
    (r : List Char) (cfg' : Configuration)
    (h : parse_filter l cfg = .ok (r, cfg')) : r.length ≤ l.length := by
  rw [parse_filter] at h
  split at h
  · simp at h
  · rename_i fst1 l1 heq1
    split at h
    · simp at h
    · rename_i fst2 l2 heq2
      exact le_trans (le_trans (parse_filter_loop_le _ _ _ _ h)
        (test_next_le _ _ _ _ heq2)) (test_next_le _ _ _ _ heq1)

theorem parse_sample_le (l : List Char) (cfg : Configuration)
    (r : List Char) (cfg' : Configuration)
    (h : parse_sample l cfg = .ok (r, cfg')) : r.length ≤ l.length := by
  rw [parse_sample] at h
  split at h
  · simp at h
  · rename_i fst1 l1 heq1
    split at h
    · simp at h
    · rename_i fst2 l2 heq2
      exact le_trans (le_trans (parse_sample_loop_le _ _ _ _ h)
        (test_next_le _ _ _ _ heq2)) (test_next_le _ _ _ _ heq1)

theorem parse_one_section_le (v l : List Char) (flags : List Bool)
    (cfg : Configuration) (flags' : List Bool) (r : List Char)
    (cfg' : Configuration)
    (h : parse_one_section v l flags cfg = .ok (flags', r, cfg')) :
    r.length ≤ l.length := by
  rw [parse_one_section] at h
  split at h
  · split at h
    · simp at h
    · split at h
      · simp at h
      · rename_i heq
        simp only [Except.ok.injEq, Prod.mk.injEq] at h
        obtain ⟨_, hr, _⟩ := h
        subst hr
        exact parse_file_name_le _ _ _ _ heq
  · split at h
    · split at h
      · simp at h
      · split at h
        · simp at h
        · rename_i heq
          simp only [Except.ok.injEq, Prod.mk.injEq] at h
          obtain ⟨_, hr, _⟩ := h
          subst hr
          exact parse_storage_size_le _ _ _ _ heq
    · split at h
      · split at h
        · simp at h
        · split at h
          · simp at h
          · rename_i heq
            simp only [Except.ok.injEq, Prod.mk.injEq] at h
            obtain ⟨_, hr, _⟩ := h
            subst hr
            exact parse_direct_output_le _ _ _ _ heq
      · split at h
        · split at h
          · simp at h
          · split at h
            · simp at h
            · rename_i heq
              simp only [Except.ok.injEq, Prod.mk.injEq] at h
              obtain ⟨_, hr, _⟩ := h
              subst hr
              exact parse_filter_le _ _ _ _ heq
        · split at h
          · split at h
            · simp at h
            · split at h
              · simp at h
              · rename_i heq
                simp only [Except.ok.injEq, Prod.mk.injEq] at h
                obtain ⟨_, hr, _⟩ := h
                subst hr
                exact parse_sample_le _ _ _ _ heq
          · simp at h

/-- Like `parse_filter_loop_f_irrel` for the section loop. -/
theorem parse_section_loop_f_irrel : ∀ (f1 f2 : Nat) (l : List Char)
    (flags : List Bool) (cfg : Configuration), l.length < f1 →
    l.length < f2 →
    parse_section_loop_f f1 l flags cfg = parse_section_loop_f f2 l flags cfg := by
  intro f1
  induction f1 with
  | zero => intro f2 l flags cfg h1 h2; omega
  | succ a ih =>
    intro f2 l flags cfg h1 h2
    match f2 with
    | 0 => omega
    | b + 1 =>
      rw [parse_section_loop_f]
      conv_rhs => rw [parse_section_loop_f]
      cases heq1 : test_next_token_type Token_t.Text_value l with
      | error e => simp only [heq1]
      | ok p1 =>
        obtain ⟨v, l1⟩ := p1
        have e1 : l1.length < l.length := test_next_lt _ _ _ _ heq1 (by simp)
        simp only [heq1]
        cases heq2 : parse_one_section v l1 flags cfg with
        | error ec => simp only [heq2]
        | ok q =>
          obtain ⟨flags1, l2, cfg1⟩ := q
          have e2 : l2.length ≤ l1.length :=
            parse_one_section_le _ _ _ _ _ _ _ heq2
          simp only [heq2]
          cases heq3 : next_token l2 with
          | error e => simp only [heq3]
          | ok trip =>
            obtain ⟨t, fst, l3⟩ := trip
            simp only [heq3]
            by_cases hbr : t = Token_t.Br_curly_end
            · simp only [if_pos hbr]
            · simp only [if_neg hbr]
              by_cases hcomma : t = Token_t.Comma
              · simp only [if_pos hcomma]
                have e3 : l3.length < l2.length :=
                  next_token_lt _ _ _ _ heq3 (by rw [hcomma]; simp)
                exact ih b l3 _ _ (by omega) (by omega)
              · simp only [if_neg hcomma]

/-! ### Policy-table (association list) lemmas -/

theorem fcFind_set_self : ∀ (m : FuncMap) (a : Nat) (d : Config_details),
    fcFind (fcSet m a d) a = some d := by
  intro m a d
  induction m with
  | nil => simp [fcSet, fcFind]
  | cons p rest ih =>
    obtain ⟨k, e⟩ := p
    by_cases hk : k = a
    · subst hk
      simp [fcSet, fcFind]
    · simp [fcSet, fcFind, hk, ih]

theorem fcFind_set_ne : ∀ (m : FuncMap) (a g : Nat) (d : Config_details),
    g ≠ a → fcFind (fcSet m a d) g = fcFind m g := by
  intro m a g d hne
  have hag : a ≠ g := Ne.symm hne
  induction m with
  | nil => simp [fcSet, fcFind, hag]
  | cons p rest ih =>
    obtain ⟨k, e⟩ := p
    by_cases hk : k = a
    · subst hk
      simp [fcSet, fcFind, hag]
    · by_cases hg : k = g
      · subst hg
        simp [fcSet, fcFind, hk]
      · simp [fcSet, fcFind, hk, hg, ih]

/-- In-place updates of two distinct keys commute, provided the second
key is present (the dispatcher only ever updates entries it has found, so
its counter updates hit existing keys). -/
theorem fcSet_comm_of_mem : ∀ (m : FuncMap) (f g : Nat)
    (fd d' d0 : Config_details), f ≠ g → fcFind m g = some d0 →
    fcSet (fcSet m f fd) g d' = fcSet (fcSet m g d') f fd := by
  intro m f g fd d' d0 hne
  induction m with
  | nil => intro hfind; simp [fcFind] at hfind
  | cons p rest ih =>
    intro hfind
    obtain ⟨k, e⟩ := p
    by_cases hkf : k = f
    · subst hkf
      simp [fcSet, hne, Ne.symm hne]
    · by_cases hkg : k = g
      · subst hkg
        simp [fcSet, hkf, Ne.symm hne]
      · rw [fcFind, if_neg hkg] at hfind
        simp [fcSet, hkf, hkg, ih hfind]

/-! ### Collector-state commutation lemmas -/

theorem withFilterEntry_create_enter (f g : Nat) (t : Int) (s : TraceState) :
    Create_instrumentation_record_enter (withFilterEntry f s) g t
      = withFilterEntry f (Create_instrumentation_record_enter s g t) := by
  rw [Create_instrumentation_record_enter, Create_instrumentation_record_enter]
  by_cases hfull : max_records ≤ s.instr_data.length <;>
    by_cases hdir : s.use_direct_file_output = false <;>
      simp [withFilterEntry, Print_vector_to_file, Print_record_to_file,
        hfull, hdir]

theorem withFilterEntry_create_exit (f g : Nat) (t : Int) (sz : Nat)
    (s : TraceState) :
    Create_instrumentation_record_exit (withFilterEntry f s) g t sz
      = withFilterEntry f (Create_instrumentation_record_exit s g t sz) := by
  rw [Create_instrumentation_record_exit, Create_instrumentation_record_exit,
    Create_instrumentation_record_exit_push,
    Create_instrumentation_record_exit_push]
  by_cases hdir : s.use_direct_file_output = false
  · by_cases hfull : max_records ≤ s.instr_data.length + 1 <;>
      simp [withFilterEntry, Print_vector_to_file, hdir, hfull]
  · by_cases hfull : max_records ≤ s.instr_data.length <;>
      simp [withFilterEntry, Print_vector_to_file, Print_record_to_file,
        hdir, hfull]

theorem withFilterEntry_exit_tail (f g fr : Nat) (t : Int) (s : TraceState) :
    exit_record_tail g fr t (withFilterEntry f s)
      = withFilterEntry f (exit_record_tail g fr t s) := by
  rw [exit_record_tail, exit_record_tail]
  have hstack : (withFilterEntry f s).size_stack = s.size_stack := rfl
  rw [hstack]
  have : ({ withFilterEntry f s with
      size_stack := (_profapi_get_size_record fr s.size_stack).2 })
      = withFilterEntry f ({ s with
        size_stack := (_profapi_get_size_record fr s.size_stack).2 }) := rfl
  rw [this, withFilterEntry_create_exit]

/-! ### Buffer lemmas -/

theorem emitted_create_enter (s : TraceState) (f : Nat) (t : Int)
    (hm : mode_ok s) :
    emitted (Create_instrumentation_record_enter s f t)
      = emitted s ++ [⟨'i', f, t, 0⟩]
    ∧ mode_ok (Create_instrumentation_record_enter s f t)
    ∧ (Create_instrumentation_record_enter s f t).use_direct_file_output
      = s.use_direct_file_output := by
  rw [Create_instrumentation_record_enter]
  by_cases hdir : s.use_direct_file_output = false
  · by_cases hfull : max_records ≤ s.instr_data.length <;>
      simp [emitted, mode_ok, Print_vector_to_file, Print_record_to_file,
        hfull, hdir]
  · have hd : s.use_direct_file_output = true := by
      revert hdir; cases s.use_direct_file_output <;> simp
    have hempty : s.instr_data = [] := hm hd
    simp [emitted, mode_ok, Print_vector_to_file, Print_record_to_file,
      hdir, hd, hempty, max_records]

theorem emitted_create_exit (s : TraceState) (f : Nat) (t : Int) (sz : Nat)
    (hm : mode_ok s) :
    emitted (Create_instrumentation_record_exit s f t sz)
      = emitted s ++ [⟨'o', f, t, sz⟩]
    ∧ mode_ok (Create_instrumentation_record_exit s f t sz)
    ∧ (Create_instrumentation_record_exit s f t sz).use_direct_file_output
      = s.use_direct_file_output := by
  rw [Create_instrumentation_record_exit,
    Create_instrumentation_record_exit_push]
  by_cases hdir : s.use_direct_file_output = false
  · by_cases hfull : max_records ≤ s.instr_data.length + 1 <;>
      simp [emitted, mode_ok, Print_vector_to_file, hdir, hfull]
  · have hd : s.use_direct_file_output = true := by
      revert hdir; cases s.use_direct_file_output <;> simp
    have hempty : s.instr_data = [] := hm hd
    simp [emitted, mode_ok, Print_vector_to_file, Print_record_to_file,
      hdir, hd, hempty, max_records]

theorem emitted_applyCreate (s : TraceState) (e : CEvent) (hm : mode_ok s) :
    emitted (applyCreate s e) = emitted s ++ [recordOf e]
    ∧ mode_ok (applyCreate s e)
    ∧ (applyCreate s e).use_direct_file_output = s.use_direct_file_output := by
  cases e with
  | enterRec f t => exact emitted_create_enter s f t hm
  | exitRec f t sz => exact emitted_create_exit s f t sz hm

theorem emitted_runCreates : ∀ (evs : List CEvent) (s : TraceState),
    mode_ok s →
    emitted (runCreates s evs) = emitted s ++ evs.map recordOf := by
  intro evs
  induction evs with
  | nil => intro s _; simp [runCreates]
  | cons e rest ih =>
    intro s hm
    have hstep : runCreates s (e :: rest)
        = runCreates (applyCreate s e) rest := rfl
    obtain ⟨h1, h2, _⟩ := emitted_applyCreate s e hm
    rw [hstep, ih _ h2, h1, List.map_cons, List.append_assoc,
      List.singleton_append]

theorem applyCreate_cap (s : TraceState) (e : CEvent)
    (h : s.instr_data.length ≤ max_records) :
    (applyCreate s e).instr_data.length ≤ max_records := by
  have hmax : max_records = 19998 := rfl
  cases e with
  | enterRec f t =>
    rw [applyCreate, Create_instrumentation_record_enter]
    by_cases hfull : max_records ≤ s.instr_data.length <;>
      by_cases hdir : s.use_direct_file_output = false <;>
        simp [Print_vector_to_file, Print_record_to_file, hfull, hdir] <;>
        omega
  | exitRec f t sz =>
    rw [applyCreate, Create_instrumentation_record_exit,
      Create_instrumentation_record_exit_push]
    by_cases hdir : s.use_direct_file_output = false
    · by_cases hfull : max_records ≤ s.instr_data.length + 1 <;>
        simp [Print_vector_to_file, hdir, hfull] <;> omega
    · by_cases hfull : max_records ≤ s.instr_data.length <;>
        simp [Print_vector_to_file, Print_record_to_file, hdir, hfull] <;>
        omega

theorem runCreates_cap : ∀ (evs : List CEvent) (s : TraceState),
    s.instr_data.length ≤ max_records →
    (runCreates s evs).instr_data.length ≤ max_records := by
  intro evs
  induction evs with
  | nil => intro s h; exact h
  | cons e rest ih =>
    intro s h
    exact ih (applyCreate s e) (applyCreate_cap s e h)

/-- In buffered mode, successive enter-side appends below the cap simply
grow the buffer by one record each and never flush or change the mode. -/
theorem runCreates_enters_fill (f : Nat) (t : Int) : ∀ (k : Nat)
    (s : TraceState), s.use_direct_file_output = false →
    s.instr_data.length + k ≤ max_records →
    (runCreates s (List.replicate k (CEvent.enterRec f t))).instr_data.length
        = s.instr_data.length + k
    ∧ (runCreates s (List.replicate k (CEvent.enterRec f t))).use_direct_file_output = false := by
  intro k
  induction k with
  | zero => intro s hdir hcap; exact ⟨rfl, hdir⟩
  | succ k ih =>
    intro s hdir hcap
    rw [List.replicate_succ]
    have hstep : runCreates s (CEvent.enterRec f t ::
          List.replicate k (CEvent.enterRec f t))
        = runCreates (applyCreate s (CEvent.enterRec f t))
            (List.replicate k (CEvent.enterRec f t)) := rfl
    rw [hstep]
    have hnoflush : ¬ max_records ≤ s.instr_data.length := by omega
    have happ : applyCreate s (CEvent.enterRec f t)
        = { s with instr_data := s.instr_data ++ [⟨'i', f, t, 0⟩] } := by
      rw [applyCreate, Create_instrumentation_record_enter]
      simp [hnoflush, hdir]
    rw [happ]
    have := ih ({ s with instr_data := s.instr_data ++ [⟨'i', f, t, 0⟩] })
      (by simpa using hdir) (by simp; omega)
    refine ⟨?_, this.2⟩
    rw [this.1]
    simp
    omega

/-! ### Section-flag lemmas -/

theorem getD_set_self : ∀ (flags : List Bool) (idx : Nat),
    idx < flags.length → (flags.set idx true).getD idx false = true := by
  intro flags
  induction flags with
  | nil => intro idx h; simp at h
  | cons b rest ih =>
    intro idx h
    cases idx with
    | zero => simp
    | succ n =>
      have := ih n (by simpa using h)
      simpa using this

theorem getD_set_preserve : ∀ (flags : List Bool) (j idx : Nat),
    flags.getD idx false = true →
    (flags.set j true).getD idx false = true := by
  intro flags
  induction flags with
  | nil => intro j idx h; simp at h
  | cons b rest ih =>
    intro j idx h
    cases j with
    | zero =>
      cases idx with
      | zero => simp
      | succ n => simpa using h
    | succ m =>
      cases idx with
      | zero => simpa using h
      | succ n =>
        have := ih m n (by simpa using h)
        simpa using this

/-- A successful `parse_one_section` marks exactly its section's
`configuration_parsed` flag (and the keyword is one of the five known
section keywords). -/
theorem parse_one_section_flags_shape (v l : List Char)
    (flags flags1 : List Bool) (cfg cfg1 : Configuration) (l1 : List Char)
    (h : parse_one_section v l flags cfg = .ok (flags1, l1, cfg1)) :
    ∃ j, section_keyword_index v = some j ∧ flags1 = flags.set j true := by
  rw [parse_one_section] at h
  by_cases h1 : v = "\"internal_data_filename\"".data
  · rw [if_pos h1] at h
    refine ⟨0, by rw [section_keyword_index, if_pos h1], ?_⟩
    by_cases hflag : flags.getD 0 false = true
    · have hapc : already_parsed_check flags 0 = .error .syn := by
        rw [already_parsed_check, if_pos hflag]
      simp only [hapc] at h
      simp at h
    · have hapc : already_parsed_check flags 0 = .ok (flags.set 0 true) := by
        rw [already_parsed_check, if_neg hflag]
      simp only [hapc] at h
      split at h
      · simp at h
      · simp only [Except.ok.injEq, Prod.mk.injEq] at h
        exact h.1.symm
  · rw [if_neg h1] at h
    by_cases h2 : v = "\"internal_storage_size\"".data
    · rw [if_pos h2] at h
      refine ⟨1, by rw [section_keyword_index, if_neg h1, if_pos h2], ?_⟩
      by_cases hflag : flags.getD 1 false = true
      · have hapc : already_parsed_check flags 1 = .error .syn := by
          rw [already_parsed_check, if_pos hflag]
        simp only [hapc] at h
        simp at h
      · have hapc : already_parsed_check flags 1 = .ok (flags.set 1 true) := by
          rw [already_parsed_check, if_neg hflag]
        simp only [hapc] at h
        split at h
        · simp at h
        · simp only [Except.ok.injEq, Prod.mk.injEq] at h
          exact h.1.symm
    · rw [if_neg h2] at h
      by_cases h3 : v = "\"internal_direct_output\"".data
      · rw [if_pos h3] at h
        refine ⟨2, by rw [section_keyword_index, if_neg h1, if_neg h2,
          if_pos h3], ?_⟩
        by_cases hflag : flags.getD 2 false = true
        · have hapc : already_parsed_check flags 2 = .error .syn := by
            rw [already_parsed_check, if_pos hflag]
          simp only [hapc] at h
          simp at h
        · have hapc : already_parsed_check flags 2 = .ok (flags.set 2 true) := by
            rw [already_parsed_check, if_neg hflag]
          simp only [hapc] at h
          split at h
          · simp at h
          · simp only [Except.ok.injEq, Prod.mk.injEq] at h
            exact h.1.symm
      · rw [if_neg h3] at h
        by_cases h4 : v = "\"runtime_filter\"".data
        · rw [if_pos h4] at h
          refine ⟨3, by rw [section_keyword_index, if_neg h1, if_neg h2,
            if_neg h3, if_pos h4], ?_⟩
          by_cases hflag : flags.getD 3 false = true
          · have hapc : already_parsed_check flags 3 = .error .syn := by
              rw [already_parsed_check, if_pos hflag]
            simp only [hapc] at h
            simp at h
          · have hapc : already_parsed_check flags 3 = .ok (flags.set 3 true) := by
              rw [already_parsed_check, if_neg hflag]
            simp only [hapc] at h
            split at h
            · simp at h
            · simp only [Except.ok.injEq, Prod.mk.injEq] at h
              exact h.1.symm
        · rw [if_neg h4] at h
          by_cases h5 : v = "\"sampling\"".data
          · rw [if_pos h5] at h
            refine ⟨4, by rw [section_keyword_index, if_neg h1, if_neg h2,
              if_neg h3, if_neg h4, if_pos h5], ?_⟩
            by_cases hflag : flags.getD 4 false = true
            · have hapc : already_parsed_check flags 4 = .error .syn := by
                rw [already_parsed_check, if_pos hflag]
              simp only [hapc] at h
              simp at h
            · have hapc : already_parsed_check flags 4 = .ok (flags.set 4 true) := by
                rw [already_parsed_check, if_neg hflag]
              simp only [hapc] at h
              split at h
              · simp at h
              · simp only [Except.ok.injEq, Prod.mk.injEq] at h
                exact h.1.symm
          · rw [if_neg h5] at h
            simp at h

/-- `parse_one_section` on a section whose flag is already set throws
`Conf_file_syntax_exception` (the `Already_parsed_check`). -/
theorem parse_one_section_dup (v l : List Char) (flags : List Bool)
    (cfg : Configuration) (idx : Nat)
    (hidx : section_keyword_index v = some idx)
    (hset : flags.getD idx false = true) :
    parse_one_section v l flags cfg = .error (.syn, cfg) := by
  rw [section_keyword_index] at hidx
  rw [parse_one_section]
  by_cases h1 : v = "\"internal_data_filename\"".data
  · rw [if_pos h1] at hidx
    rw [if_pos h1]
    injection hidx with hidx
    subst hidx
    rw [already_parsed_check, if_pos hset]
  · rw [if_neg h1] at hidx
    rw [if_neg h1]
    by_cases h2 : v = "\"internal_storage_size\"".data
    · rw [if_pos h2] at hidx
      rw [if_pos h2]
      injection hidx with hidx
      subst hidx
      rw [already_parsed_check, if_pos hset]
    · rw [if_neg h2] at hidx
      rw [if_neg h2]
      by_cases h3 : v = "\"internal_direct_output\"".data
      · rw [if_pos h3] at hidx
        rw [if_pos h3]
        injection hidx with hidx
        subst hidx
        rw [already_parsed_check, if_pos hset]
      · rw [if_neg h3] at hidx
        rw [if_neg h3]
        by_cases h4 : v = "\"runtime_filter\"".data
        · rw [if_pos h4] at hidx
          rw [if_pos h4]
          injection hidx with hidx
          subst hidx
          rw [already_parsed_check, if_pos hset]
        · rw [if_neg h4] at hidx
          rw [if_neg h4]
          by_cases h5 : v = "\"sampling\"".data
          · rw [if_pos h5] at hidx
            rw [if_pos h5]
            injection hidx with hidx
            subst hidx
            rw [already_parsed_check, if_pos hset]
          · rw [if_neg h5] at hidx
            simp at hidx

/-- The section loop throws `Conf_file_syntax_exception` as soon as it
meets a section keyword whose flag is already set. -/
theorem parse_section_loop_dup (fuel : Nat) (l l1 v : List Char)
    (flags : List Bool) (cfg : Configuration) (idx : Nat)
    (htest : test_next_token_type .Text_value l = .ok (v, l1))
    (hidx : section_keyword_index v = some idx)
    (hset : flags.getD idx false = true) :
    parse_section_loop_f fuel l flags cfg = .error (.syn, cfg) := by
  cases fuel with
  | zero => rfl
  | succ n =>
    rw [parse_section_loop_f]
    simp only [htest, parse_one_section_dup v l1 flags cfg idx hidx hset]

/-- A successful `ParseFrom` has consumed the whole input (its final
`File_end` check succeeds only at end of input). -/
theorem ParseFrom_ok_rest_nil (l rest : List Char) (cfg : Configuration)
    (h : ParseFrom l = .ok (rest, cfg)) : rest = [] := by
  rw [ParseFrom] at h
  split at h
  · simp at h
  · split at h
    · simp at h
    · split at h
      · simp at h
      · rename_i heq
        simp only [Except.ok.injEq, Prod.mk.injEq] at h
        obtain ⟨hr, _⟩ := h
        subst hr
        exact test_next_File_end_nil _ _ _ heq

/-! ### Sampling-policy lemmas -/

/-- A sampling entry for a function that already has a policy record
changes nothing ("first writer wins"). -/
theorem sample_entry_update_existing (cfg : Configuration) (a : Nat)
    (n : Int) (d : Config_details)
    (h : fcFind cfg.func_config a = some d) :
    sample_entry_update cfg a n = cfg := by
  rw [sample_entry_update, h]

/-- A sampling entry with ratio at most 1 creates no policy record. -/
theorem sample_entry_update_low (cfg : Configuration) (a : Nat) (n : Int)
    (h : n ≤ 1) :
    sample_entry_update cfg a n = cfg := by
  rw [sample_entry_update]
  split
  · rfl
  · rw [if_neg (by omega)]

/-- A sampling entry with ratio above 1 for a fresh function creates the
record `Config_details(false, true, n - 1, n)`. -/
theorem sample_entry_update_fresh (cfg : Configuration) (a : Nat) (n : Int)
    (hfind : fcFind cfg.func_config a = none) (hn : 1 < n) :
    fcFind (sample_entry_update cfg a n).func_config a
      = some ⟨false, true, n - 1, n⟩ := by
  rw [sample_entry_update, hfind, if_pos hn]
  exact fcFind_set_self _ _ _

theorem sample_entry_update_preserves (cfg : Configuration) (a b : Nat)
    (n : Int) (d : Config_details)
    (h : fcFind cfg.func_config b = some d) :
    fcFind (sample_entry_update cfg a n).func_config b = some d := by
  rw [sample_entry_update]
  by_cases hab : a = b
  · subst hab
    rw [h]
    exact h
  · cases hfa : fcFind cfg.func_config a with
    | some d2 => exact h
    | none =>
      by_cases hn : n > 1
      · rw [if_pos hn]
        exact (fcFind_set_ne cfg.func_config a b _
          (fun hba => hab hba.symm)).trans h
      · rw [if_neg hn]
        exact h

/-- The sampling collection loop never modifies an existing policy
record. -/
theorem parse_sample_loop_f_preserves : ∀ (fuel : Nat) (l : List Char)
    (cfg : Configuration) (l' : List Char) (cfg' : Configuration)
    (b : Nat) (d : Config_details),
    parse_sample_loop_f fuel l cfg = .ok (l', cfg') →
    fcFind cfg.func_config b = some d →
    fcFind cfg'.func_config b = some d := by
  intro fuel
  induction fuel with
  | zero => intro l cfg l' cfg' b d h; simp [parse_sample_loop_f] at h
  | succ fuel ih =>
    intro l cfg l' cfg' b d h hfind
    rw [parse_sample_loop_f] at h
    split at h
    · simp at h
    · split at h
      · simp at h
      · split at h
        · split at h
          · simp at h
          · split at h
            · simp at h
            · split at h
              · simp at h
              · rename_i a heqa
                split at h
                · simp at h
                · split at h
                  · simp at h
                  · split at h
                    · split at h
                      · simp at h
                      · split at h
                        · simp at h
                        · split at h
                          · simp at h
                          · rename_i n heqn
                            split at h
                            · simp at h
                            · split at h
                              · simp at h
                              · split at h
                                · simp only [Except.ok.injEq,
                                    Prod.mk.injEq] at h
                                  obtain ⟨_, hc⟩ := h
                                  subst hc
                                  exact sample_entry_update_preserves
                                    cfg a b n d hfind
                                · split at h
                                  · exact ih _ _ _ _ b d h
                                      (sample_entry_update_preserves
                                        cfg a b n d hfind)
                                  · simp at h
                    · simp at h
        · simp at h

/-! ### Filter-list lemmas -/

theorem foldl_set_filtered_preserve : ∀ (as : List Nat) (m : FuncMap)
    (b : Nat), fcFind m b = some filtered_details →
    fcFind (as.foldl (fun mm a => fcSet mm a filtered_details) m) b
      = some filtered_details := by
  intro as
  induction as with
  | nil => intro m b h; exact h
  | cons a rest ih =>
    intro m b h
    rw [List.foldl_cons]
    by_cases hab : a = b
    · subst hab
      exact ih _ _ (fcFind_set_self m a filtered_details)
    · exact ih _ _ ((fcFind_set_ne m a b _ (fun hh => hab hh.symm)).trans h)

theorem foldl_set_filtered_mem : ∀ (as : List Nat) (m : FuncMap) (b : Nat),
    b ∈ as →
    fcFind (as.foldl (fun mm a => fcSet mm a filtered_details) m) b
      = some filtered_details := by
  intro as
  induction as with
  | nil => intro m b h; simp at h
  | cons a rest ih =>
    intro m b h
    rw [List.foldl_cons]
    rcases List.mem_cons.mp h with hb | hb
    · subst hb
      exact foldl_set_filtered_preserve rest _ b (fcFind_set_self m b _)
    · exact ih _ _ hb

/-- A successful `Parse_filter` collection loop reads the address list
`filter_addrs` extracts, and its whole effect on the policy table is to
write `Config_details(true)` for each listed address, in list order. -/
theorem parse_filter_loop_f_addrs : ∀ (fuel : Nat) (l : List Char)
    (cfg : Configuration) (l' : List Char) (cfg' : Configuration),
    parse_filter_loop_f fuel l cfg = .ok (l', cfg') →
    ∃ as, filter_addrs_f fuel l = some (as, l')
      ∧ cfg'.func_config
        = as.foldl (fun mm a => fcSet mm a filtered_details)
            cfg.func_config := by
  intro fuel
  induction fuel with
  | zero => intro l cfg l' cfg' h; simp [parse_filter_loop_f] at h
  | succ fuel ih =>
    intro l cfg l' cfg' h
    rw [parse_filter_loop_f] at h
    rw [filter_addrs_f]
    split at h
    · simp at h
    · rename_i v l1 heq1
      split at h
      · simp at h
      · rename_i a heq2
        split at h
        · simp at h
        · rename_i t fst l2 heq3
          split at h
          · rename_i hbr
            simp only [if_pos hbr]
            simp only [Except.ok.injEq, Prod.mk.injEq] at h
            obtain ⟨hl, hc⟩ := h
            subst hl
            refine ⟨[a], rfl, ?_⟩
            rw [← hc]
            rfl
          · split at h
            · rename_i hbr hcomma
              simp only [if_neg hbr, if_pos hcomma]
              obtain ⟨as', hfa, hmap⟩ := ih _ _ _ _ h
              refine ⟨a :: as', ?_, ?_⟩
              · simp only [hfa]
              · rw [List.foldl_cons]
                exact hmap
            · simp at h

/-! ### Claim theorems -/

/-- C10: while `trace_ready` is false (before the collector singleton's
constructor completes or after its destructor has begun), both public
entry points `__cyg_profile_func_enter` and `__cyg_profile_func_exit`
are complete no-ops: the state — policy table, sample counters, buffer,
log and size stack — is returned unchanged. -/
theorem C10_not_ready_noop (func frame : Nat) (tE tX : Int)
    (s : TraceState) (h : s.trace_ready = false) :
    cyg_profile_func_enter func tE s = s
    ∧ cyg_profile_func_exit func frame tX s = s := by
  constructor
  · rw [cyg_profile_func_enter, if_neg (by rw [h]; simp)]
  · rw [cyg_profile_func_exit, if_neg (by rw [h]; simp)]

theorem C10_not_ready_noop_witness :
    cyg_profile_func_enter 1 0 ⟨[], false, [], [], [], false⟩
      = (⟨[], false, [], [], [], false⟩ : TraceState)
    ∧ cyg_profile_func_exit 1 2 0 ⟨[], false, [], [], [], false⟩
      = (⟨[], false, [], [], [], false⟩ : TraceState) :=
  C10_not_ready_noop 1 2 0 0 ⟨[], false, [], [], [], false⟩ rfl

/-- C7 (amended): `_profapi_get_size_record` pops only a matching top:
a non-matching (or absent) top returns 0 and leaves the stack unchanged.
Consequently, when no two consecutive records of the stack carry the same
frame identity, a second consecutive `GetSizeRecord(f)` with no
intervening push returns 0 and leaves the stack unchanged. (Without that
proviso the second call can pop again — see the counterexample.) -/
theorem C7_no_double_pop (st : List Size_stack_record) (f : Nat)
    (hdist : List.Chain' (fun a b => a.stack_frame ≠ b.stack_frame) st) :
    _profapi_get_size_record f (_profapi_get_size_record f st).2
      = (0, (_profapi_get_size_record f st).2)
    ∧ ∀ r rest, st = r :: rest → f ≠ r.stack_frame →
        _profapi_get_size_record f st = (0, st) := by
  constructor
  · match st with
    | [] => rfl
    | r :: rest =>
      by_cases hf : f = r.stack_frame
      · rw [_profapi_get_size_record, if_pos hf]
        match rest, hdist with
        | [], _ => rfl
        | r2 :: rest2, hdist =>
          have hne : r.stack_frame ≠ r2.stack_frame :=
            (List.chain'_cons.mp hdist).1
          rw [_profapi_get_size_record, if_neg (by rw [hf]; exact hne)]
      · rw [_profapi_get_size_record, if_neg hf]
        rw [_profapi_get_size_record, if_neg hf]
  · intro r rest hst hne
    subst hst
    rw [_profapi_get_size_record, if_neg hne]

theorem C7_no_double_pop_witness :
    _profapi_get_size_record 3 (_profapi_get_size_record 3
        [⟨3, 5⟩, ⟨4, 7⟩]).2
      = (0, (_profapi_get_size_record 3 [⟨3, 5⟩, ⟨4, 7⟩]).2)
    ∧ _profapi_get_size_record 9 [⟨3, 5⟩, ⟨4, 7⟩]
      = (0, [⟨3, 5⟩, ⟨4, 7⟩]) := by
  have hchain : List.Chain'
      (fun a b : Size_stack_record => a.stack_frame ≠ b.stack_frame)
      [⟨3, 5⟩, ⟨4, 7⟩] :=
    List.chain'_cons.mpr ⟨by decide, List.chain'_singleton _⟩
  have h := C7_no_double_pop [⟨3, 5⟩, ⟨4, 7⟩] 3 hchain
  have h9 := C7_no_double_pop [⟨3, 5⟩, ⟨4, 7⟩] 9 hchain
  exact ⟨h.1, h9.2 ⟨3, 5⟩ [⟨4, 7⟩] rfl (by decide)⟩

/-- C7 counterexample: on the stack `[⟨1,5⟩, ⟨1,7⟩]` (two consecutive
records for frame 1, as two `Using` notifications from the same frame
produce) the second consecutive `GetSizeRecord(1)` does not return 0
with the stack unchanged: it pops again and returns 7. -/
theorem C7_counterexample :
    _profapi_get_size_record 1
        ((_profapi_get_size_record 1 [⟨1, 5⟩, ⟨1, 7⟩]).2)
      ≠ (0, (_profapi_get_size_record 1 [⟨1, 5⟩, ⟨1, 7⟩]).2) := by
  decide

/-- C8 (amended): `_profapi_clean_size_records frame` pops exactly the
maximal top run of records whose frame identity is *less than or equal
to* `frame` (the source comment: records "with same or lower stack
address"), leaving the remaining records untouched; afterwards the top
record, if any, no longer satisfies the sweep condition. -/
theorem C8_clean_sweeps_le (frame : Nat) (st : List Size_stack_record) :
    _profapi_clean_size_records frame st
      = st.dropWhile (fun r => decide (r.stack_frame ≤ frame))
    ∧ ∀ r rest, _profapi_clean_size_records frame st = r :: rest →
        frame < r.stack_frame := by
  induction st with
  | nil => exact ⟨rfl, by intro r rest h; simp [_profapi_clean_size_records] at h⟩
  | cons r0 rest ih =>
    by_cases h0 : r0.stack_frame ≤ frame
    · constructor
      · rw [_profapi_clean_size_records, if_pos h0, ih.1,
          List.dropWhile_cons_of_pos (by simpa using h0)]
      · intro r rest' h
        rw [_profapi_clean_size_records, if_pos h0] at h
        exact ih.2 r rest' h
    · constructor
      · rw [_profapi_clean_size_records, if_neg h0,
          List.dropWhile_cons_of_neg (by simpa using h0)]
      · intro r rest' h
        rw [_profapi_clean_size_records, if_neg h0] at h
        injection h with h1 h2
        subst h1
        omega

theorem C8_clean_sweeps_le_witness :
    _profapi_clean_size_records 3 [⟨5, 1⟩]
      = List.dropWhile (fun r => decide (r.stack_frame ≤ 3)) [⟨5, 1⟩]
    ∧ 3 < 5 :=
  ⟨(C8_clean_sweeps_le 3 [⟨5, 1⟩]).1,
   (C8_clean_sweeps_le 3 [⟨5, 1⟩]).2 ⟨5, 1⟩ [] (by decide)⟩

/-- C5 (amended): in buffered mode, appending a record when the buffer
holds the maximum record count (19998) triggers exactly one flush: the
enter-side overload flushes the 19998 buffered records *before*
appending, the exit-side one appends first and then flushes all 19999.
At event boundaries the buffer length never exceeds the cap. After the
final shutdown flush (`Print_vector_to_file`) the log holds exactly the
appended records, in their append order. (Within an exit-side append the
buffer momentarily holds 19999 records — see the counterexample.) -/
theorem C5_buffer_cap_flush_totals (f : Nat) (t : Int) (sz : Nat)
    (s : TraceState) (evs : List CEvent) (i : Nat) :
    (s.use_direct_file_output = false → s.instr_data.length = max_records →
      Create_instrumentation_record_enter s f t
        = { s with trace_log := s.trace_log ++ s.instr_data,
                   instr_data := [⟨'i', f, t, 0⟩] }
      ∧ Create_instrumentation_record_exit s f t sz
        = { s with
            trace_log := s.trace_log ++ (s.instr_data ++ [⟨'o', f, t, sz⟩]),
            instr_data := [] })
    ∧ (s.instr_data.length ≤ max_records →
        (runCreates s (evs.take i)).instr_data.length ≤ max_records)
    ∧ (mode_ok s →
        emitted (runCreates s evs) = emitted s ++ evs.map recordOf
        ∧ (Print_vector_to_file (runCreates s evs)).trace_log
            = emitted s ++ evs.map recordOf) := by
  refine ⟨?_, ?_, ?_⟩
  · intro hdir hfull
    constructor
    · rw [Create_instrumentation_record_enter]
      simp [hfull, Print_vector_to_file, hdir]
    · rw [Create_instrumentation_record_exit,
        Create_instrumentation_record_exit_push]
      simp [hfull, Print_vector_to_file, hdir]
  · intro hcap
    exact runCreates_cap (evs.take i) s hcap
  · intro hm
    have h := emitted_runCreates evs s hm
    refine ⟨h, ?_⟩
    have : (Print_vector_to_file (runCreates s evs)).trace_log
        = emitted (runCreates s evs) := rfl
    rw [this, h]

theorem C5_buffer_cap_flush_totals_witness :
    (Create_instrumentation_record_enter
        ⟨[], false, List.replicate max_records ⟨'i', 1, 0, 0⟩, [], [], true⟩
        7 0
      = ⟨[], false, [⟨'i', 7, 0, 0⟩],
          List.replicate max_records ⟨'i', 1, 0, 0⟩, [], true⟩)
    ∧ (runCreates ⟨[], false, [], [], [], true⟩
          ([CEvent.enterRec 7 0, CEvent.exitRec 7 1 2].take 1)).instr_data.length
        ≤ max_records
    ∧ emitted (runCreates ⟨[], false, [], [], [], true⟩
          [CEvent.enterRec 7 0, CEvent.exitRec 7 1 2])
        = emitted ⟨[], false, [], [], [], true⟩
          ++ [CEvent.enterRec 7 0, CEvent.exitRec 7 1 2].map recordOf := by
  refine ⟨?_, ?_, ?_⟩
  · exact ((C5_buffer_cap_flush_totals 7 0 2
      ⟨[], false, List.replicate max_records ⟨'i', 1, 0, 0⟩, [], [], true⟩
      [] 0).1 rfl (by simp)).1
  · exact (C5_buffer_cap_flush_totals 7 0 2 ⟨[], false, [], [], [], true⟩
      [CEvent.enterRec 7 0, CEvent.exitRec 7 1 2] 1).2.1 (by decide)
  · exact ((C5_buffer_cap_flush_totals 7 0 2 ⟨[], false, [], [], [], true⟩
      [CEvent.enterRec 7 0, CEvent.exitRec 7 1 2] 1).2.2
      (by intro h; simp at h)).1

/-- C9 (amended): at collector *startup*, a failed buffer reservation is
retried exactly once: after `reserve(instr_data_init_len)` throws
`std::length_error`, the constructor retries with the default capacity
20000 and nothing propagates; if the retry also fails, the collector
switches permanently to direct unbuffered output, and in direct mode no
`Create_instrumentation_record` call ever grows the buffer again. A
growth failure *during operation*, however, is not handled: the
`push_back` in `Create_instrumentation_record` has no surrounding
handler, so the failure propagates out of the entry point. -/
theorem C9_growth_retry_then_direct (cfg : Configuration)
    (canReserve : Nat → Bool) (s s2 : TraceState) (f : Nat) (t : Int)
    (hdir : cfg.use_direct_file_output = false)
    (hfail1 : canReserve cfg.instr_data_init_len = false)
    (hsdir : s.use_direct_file_output = true) (hsempty : s.instr_data = [])
    (hs2 : s2.use_direct_file_output = false) :
    (ctor_setup_storage cfg canReserve).2 = 2
    ∧ (canReserve default_instr_data_init_len = false →
        (ctor_setup_storage cfg canReserve).1 = true)
    ∧ (Create_instrumentation_record_enter s f t).instr_data = []
    ∧ (Create_instrumentation_record_exit s f t 0).instr_data = []
    ∧ Create_instrumentation_record_enter_e false s2 f t = .error () := by
  refine ⟨?_, ?_, ?_, ?_, ?_⟩
  · by_cases h2 : canReserve default_instr_data_init_len = true <;>
      simp [ctor_setup_storage, hdir, hfail1, h2]
  · intro h2
    simp [ctor_setup_storage, hdir, hfail1, h2]
  · rw [Create_instrumentation_record_enter]
    simp [hsdir, hsempty, Print_record_to_file, Print_vector_to_file,
      max_records]
  · rw [Create_instrumentation_record_exit,
      Create_instrumentation_record_exit_push]
    simp [hsdir, hsempty, Print_record_to_file, Print_vector_to_file,
      max_records]
  · rw [Create_instrumentation_record_enter_e]
    by_cases hfull : max_records ≤ s2.instr_data.length <;>
      simp [hfull, Print_vector_to_file, hs2]

theorem C9_growth_retry_then_direct_witness :
    (ctor_setup_storage initConfiguration noReserve).2 = 2
    ∧ (ctor_setup_storage initConfiguration noReserve).1 = true
    ∧ (Create_instrumentation_record_enter
        ⟨[], true, [], [], [], true⟩ 7 0).instr_data = []
    ∧ (Create_instrumentation_record_exit
        ⟨[], true, [], [], [], true⟩ 7 0 0).instr_data = []
    ∧ Create_instrumentation_record_enter_e false
        ⟨[], false, [], [], [], true⟩ 7 0 = .error () := by
  have h := C9_growth_retry_then_direct initConfiguration noReserve
    ⟨[], true, [], [], [], true⟩ ⟨[], false, [], [], [], true⟩ 7 0
    rfl rfl rfl rfl rfl
  exact ⟨h.1, h.2.1 rfl, h.2.2.1, h.2.2.2.1, h.2.2.2.2⟩

/-- C9 counterexample: the claim also covers growth failures "during
operation", but the operation-phase `push_back` has no handler in
`Create_instrumentation_record`: when buffered growth fails there, the
failure propagates out of the entry point — the collector does not
switch to direct output. -/
theorem C9_counterexample :
    Create_instrumentation_record_enter_e false
      ⟨[], false, [], [], [], true⟩ 7 0 = .error () := by
  rw [Create_instrumentation_record_enter_e]
  simp [max_records]

/-- C5 counterexample: the buffer's size does exceed the 19998-record cap
at one program point. From startup in buffered mode, 19998 accepted enter
events fill the buffer to exactly 19998 records; the next exit-side
`Create_instrumentation_record` performs its append *before* its flush
check, so right after the append (the first half of the call) the buffer
holds 19999 records. -/
theorem C5_counterexample :
    (Create_instrumentation_record_exit_push
        (runCreates (startState initConfiguration)
          (List.replicate max_records (CEvent.enterRec 7 0)))
        7 0 0).instr_data.length = 19999 := by
  have hfill := runCreates_enters_fill 7 0 max_records
    (startState initConfiguration) rfl
    (by simp [startState, initConfiguration])
  rw [Create_instrumentation_record_exit_push, if_pos hfill.2]
  simp only [List.length_append, hfill.1]
  decide

/-- C4: a filtered function's events are dropped with no side effects:
with `f`'s policy record marked `is_filtered`, both entry points return
the state unchanged (no buffer append, no log write, no counter change,
no size-stack interaction); and for every other function `g`, dispatching
`g`'s events commutes with installing `f`'s filter entry, i.e. `g` is
dispatched exactly as it would be without `f`'s filter entry. -/
theorem C4_filtered_events_dropped (f g frame : Nat) (tE tX : Int)
    (s : TraceState) (d : Config_details)
    (hfind : fcFind s.func_config f = some d)
    (hfilt : d.is_filtered = true) (hne : g ≠ f) :
    cyg_profile_func_enter f tE s = s
    ∧ cyg_profile_func_exit f frame tX s = s
    ∧ cyg_profile_func_enter g tE (withFilterEntry f s)
        = withFilterEntry f (cyg_profile_func_enter g tE s)
    ∧ cyg_profile_func_exit g frame tX (withFilterEntry f s)
        = withFilterEntry f (cyg_profile_func_exit g frame tX s) := by
  refine ⟨?_, ?_, ?_, ?_⟩
  · simp [cyg_profile_func_enter, hfind, hfilt]
  · simp [cyg_profile_func_exit, hfind, hfilt]
  · rw [cyg_profile_func_enter, cyg_profile_func_enter]
    have hready : (withFilterEntry f s).trace_ready = s.trace_ready := rfl
    rw [hready]
    by_cases hr : s.trace_ready = true
    · rw [if_pos hr, if_pos hr,
        show fcFind (withFilterEntry f s).func_config g
          = fcFind s.func_config g from fcFind_set_ne _ _ _ _ hne]
      cases hfg : fcFind s.func_config g with
      | none => simp only [hfg]; exact withFilterEntry_create_enter f g tE s
      | some dg =>
        simp only [hfg]
        by_cases hdfilt : dg.is_filtered = true
        · simp [hdfilt]
        · simp only [Bool.not_eq_true] at hdfilt
          simp only [hdfilt, Bool.false_eq_true, if_false]
          have hmap : fcSet (fcSet s.func_config f filtered_details) g
                { dg with sample_current := dg.sample_current + 1 }
              = fcSet (fcSet s.func_config g
                  { dg with sample_current := dg.sample_current + 1 })
                  f filtered_details :=
            fcSet_comm_of_mem s.func_config f g filtered_details _ dg
              (Ne.symm hne) hfg
          by_cases hsamp : dg.is_sampled = true
          · simp only [hdfilt, hsamp] at hmap
            simp only [hsamp, if_true]
            rw [apply_ite (withFilterEntry f)]
            congr 1
            · simp [withFilterEntry, hmap]
            · rw [← withFilterEntry_create_enter f g tE]
              congr 1
              simp [withFilterEntry, hmap]
          · simp only [Bool.not_eq_true] at hsamp
            simp only [hsamp, Bool.false_eq_true, if_false]
            exact withFilterEntry_create_enter f g tE s
    · rw [if_neg hr, if_neg hr]
  · rw [cyg_profile_func_exit, cyg_profile_func_exit]
    have hready : (withFilterEntry f s).trace_ready = s.trace_ready := rfl
    rw [hready]
    by_cases hr : s.trace_ready = true
    · rw [if_pos hr, if_pos hr,
        show fcFind (withFilterEntry f s).func_config g
          = fcFind s.func_config g from fcFind_set_ne _ _ _ _ hne]
      cases hfg : fcFind s.func_config g with
      | none => simp only [hfg]; exact withFilterEntry_exit_tail f g frame tX s
      | some dg =>
        simp only [hfg]
        by_cases hdfilt : dg.is_filtered = true
        · simp [hdfilt]
        · simp only [Bool.not_eq_true] at hdfilt
          simp only [hdfilt, Bool.false_eq_true, if_false]
          have hmap : fcSet (fcSet s.func_config f filtered_details) g
                { dg with sample_current := sample_init }
              = fcSet (fcSet s.func_config g
                  { dg with sample_current := sample_init })
                  f filtered_details :=
            fcSet_comm_of_mem s.func_config f g filtered_details _ dg
              (Ne.symm hne) hfg
          by_cases hsamp : dg.is_sampled = true
          · simp only [hdfilt, hsamp] at hmap
            simp only [hsamp, if_true]
            by_cases hcur : dg.sample_current < dg.sample_ratio
            · simp only [hcur, if_true]
              rfl
            · simp only [hcur, if_false]
              rw [← withFilterEntry_exit_tail f g frame tX]
              congr 1
              simp [withFilterEntry, hmap]
          · simp only [Bool.not_eq_true] at hsamp
            simp only [hsamp, Bool.false_eq_true, if_false]
            exact withFilterEntry_exit_tail f g frame tX s
    · rw [if_neg hr, if_neg hr]

theorem C4_filtered_events_dropped_witness :
    cyg_profile_func_enter 4 0 ⟨[(4, ⟨true, false, 0, 0⟩)], false, [], [], [], true⟩
      = (⟨[(4, ⟨true, false, 0, 0⟩)], false, [], [], [], true⟩ : TraceState)
    ∧ cyg_profile_func_exit 4 9 1 ⟨[(4, ⟨true, false, 0, 0⟩)], false, [], [], [], true⟩
      = (⟨[(4, ⟨true, false, 0, 0⟩)], false, [], [], [], true⟩ : TraceState)
    ∧ cyg_profile_func_enter 8 0
        (withFilterEntry 4 ⟨[(4, ⟨true, false, 0, 0⟩)], false, [], [], [], true⟩)
      = withFilterEntry 4 (cyg_profile_func_enter 8 0
          ⟨[(4, ⟨true, false, 0, 0⟩)], false, [], [], [], true⟩)
    ∧ cyg_profile_func_exit 8 9 1
        (withFilterEntry 4 ⟨[(4, ⟨true, false, 0, 0⟩)], false, [], [], [], true⟩)
      = withFilterEntry 4 (cyg_profile_func_exit 8 9 1
          ⟨[(4, ⟨true, false, 0, 0⟩)], false, [], [], [], true⟩) :=
  C4_filtered_events_dropped 4 8 9 0 1
    ⟨[(4, ⟨true, false, 0, 0⟩)], false, [], [], [], true⟩
    ⟨true, false, 0, 0⟩ (by decide) rfl (by decide)

/-- C8 counterexample: the spec's sweep condition (pop records with frame
identity ≥ the argument) disagrees with the code's (≤): on the stack
`[⟨5,1⟩]`, `Clean(3)` per the spec pops the record (5 ≥ 3), but the code
leaves the stack unchanged (3 ≥ 5 fails). -/
theorem C8_counterexample :
    _profapi_clean_size_records 3 [⟨5, 1⟩] ≠ clean_per_spec 3 [⟨5, 1⟩] := by
  decide

/-- C2: `Parse` distinguishes its failure modes: a missing configuration
file returns `EXIT_ERR_CONFIG_FILE_OPEN` (11) with the policy table
cleared; every error *return* on an existing file carries
`EXIT_ERR_CONFIG_FILE_SYNTAX` (12) and an empty policy table; and a
repeated section — whichever of the five sections repeats (any keyword
`section_keyword_index` knows, with its `configuration_parsed` flag
already set) — makes the section loop throw the syntax exception at
once, before mutating the store. An out-of-range numeric value is *not*
among the returns: it escapes as an uncaught `std::out_of_range`
(see the counterexample). -/
theorem C2_parse_failure_modes :
    (∀ pos : Nat, Parse none pos
        = .errRet EXIT_ERR_CONFIG_FILE_OPEN
            { initConfiguration with func_config := [] })
    ∧ (∀ (text : List Char) (pos code : Nat) (cfg : Configuration),
        Parse (some text) pos = .errRet code cfg →
        code = EXIT_ERR_CONFIG_FILE_SYNTAX ∧ cfg.func_config = [])
    ∧ (∀ (fuel : Nat) (l l1 v : List Char) (flags : List Bool)
        (cfg : Configuration) (idx : Nat),
        test_next_token_type .Text_value l = .ok (v, l1) →
        section_keyword_index v = some idx →
        flags.getD idx false = true →
        parse_section_loop_f fuel l flags cfg = .error (.syn, cfg)) := by
  refine ⟨fun pos => rfl, ?_, parse_section_loop_dup⟩
  intro text pos code cfg h
  simp only [Parse] at h
  split at h
  · simp at h
  · rename_i c heq
    simp only [ParseOutcome.errRet.injEq] at h
    obtain ⟨hcode, hcfg⟩ := h
    subst hcode
    subst hcfg
    exact ⟨rfl, rfl⟩
  · simp at h

theorem C2_parse_failure_modes_witness :
    (Parse none 0
        = .errRet EXIT_ERR_CONFIG_FILE_OPEN
            { initConfiguration with func_config := [] })
    ∧ (EXIT_ERR_CONFIG_FILE_SYNTAX = EXIT_ERR_CONFIG_FILE_SYNTAX
        ∧ initConfiguration.func_config = [])
    ∧ parse_section_loop_f 3 " \"sampling\" : [ ]".data
        [false, false, false, false, true] initConfiguration
        = .error (.syn, initConfiguration) := by
  obtain ⟨h1, h2, h3⟩ := C2_parse_failure_modes
  refine ⟨h1 0, h2 "x".data 0 EXIT_ERR_CONFIG_FILE_SYNTAX
      initConfiguration (by decide),
    h3 3 " \"sampling\" : [ ]".data " : [ ]".data "\"sampling\"".data
      [false, false, false, false, true] initConfiguration 4
      rfl (by decide) (by decide)⟩

/-- C2 counterexample: the spec claims every value violation, including
an out-of-range numeric value, yields the `ConfigSyntaxError` return with
an empty policy table. In the code `std::stoul` throws
`std::out_of_range`, which `Parse` does not catch (it catches only the
two `Conf_file_*` exceptions), so the exception escapes and the policy
table — already holding the parsed `runtime_filter` entry — is never
cleared. -/
theorem C2_counterexample :
    Parse (some ("CIRC = \x7b \"runtime_filter\" : [7] , \"internal_storage_size\" : 99999999999999999999 \x7d".data)) 0
      = .exn { trace_file_name := "trace.log".data,
               instr_data_init_len := 20000,
               use_direct_file_output := false,
               func_config := [(7, filtered_details)] }
    ∧ ((7, filtered_details) :: []) ≠ ([] : FuncMap) := by
  constructor
  · decide
  · decide

/-- C6: parsing is deterministic (two observations of the same call
agree), but re-parsing is broken: the lexer cursor of `Next_token` is a
function-local `static`, so a successful `Parse` leaves it at the end of
the text (`pos = text.length`), and a second `Parse` call in the same
process resumes there, sees `File_end` instead of the `CIRC` magic
token, and fails with `EXIT_ERR_CONFIG_FILE_SYNTAX` on the fresh
constructor state — it does not reproduce the first result. -/
theorem C6_reparse_not_idempotent (text : List Char) (cfg : Configuration)
    (pos : Nat) (h : Parse (some text) 0 = .ok cfg pos) :
    (∀ o1 o2 : ParseOutcome, Parse (some text) 0 = o1 →
      Parse (some text) 0 = o2 → o1 = o2)
    ∧ pos = text.length
    ∧ Parse (some text) pos
        = .errRet EXIT_ERR_CONFIG_FILE_SYNTAX initConfiguration := by
  refine ⟨fun o1 o2 h1 h2 => h1 ▸ h2, ?_⟩
  simp only [Parse] at h
  split at h
  · rename_i rest cfg0 heq
    simp only [ParseOutcome.ok.injEq] at h
    obtain ⟨hcfg, hpos⟩ := h
    have hrest : rest = [] := ParseFrom_ok_rest_nil _ _ _ heq
    subst hrest
    have hlen : pos = text.length := by
      rw [← hpos]
      simp
    refine ⟨hlen, ?_⟩
    rw [hlen]
    simp only [Parse, List.drop_length]
    rfl
  · simp at h
  · simp at h

theorem C6_reparse_not_idempotent_witness :
    (∀ o1 o2 : ParseOutcome,
      Parse (some "CIRC = \x7b \"runtime_filter\" : [7] \x7d".data) 0 = o1 →
      Parse (some "CIRC = \x7b \"runtime_filter\" : [7] \x7d".data) 0 = o2 →
      o1 = o2)
    ∧ 33 = "CIRC = \x7b \"runtime_filter\" : [7] \x7d".data.length
    ∧ Parse (some "CIRC = \x7b \"runtime_filter\" : [7] \x7d".data) 33
        = .errRet EXIT_ERR_CONFIG_FILE_SYNTAX initConfiguration :=
  C6_reparse_not_idempotent "CIRC = \x7b \"runtime_filter\" : [7] \x7d".data
    { trace_file_name := "trace.log".data, instr_data_init_len := 20000,
      use_direct_file_output := false,
      func_config := [(7, filtered_details)] }
    33 (by decide)

/-- C6 counterexample: on the well-formed text
`CIRC = \x7b "runtime_filter" : [7] \x7d` the first `Parse` succeeds, but
the second call of the same process (static cursor now at the end of the
33-character text) returns the syntax-error code instead of the first
call result: re-parsing the same text into a fresh store does not
succeed, contradicting the claim. -/
theorem C6_counterexample :
    Parse (some "CIRC = \x7b \"runtime_filter\" : [7] \x7d".data) 0
      = .ok { trace_file_name := "trace.log".data,
              instr_data_init_len := 20000,
              use_direct_file_output := false,
              func_config := [(7, filtered_details)] } 33
    ∧ Parse (some "CIRC = \x7b \"runtime_filter\" : [7] \x7d".data) 33
        = .errRet EXIT_ERR_CONFIG_FILE_SYNTAX initConfiguration
    ∧ Parse (some "CIRC = \x7b \"runtime_filter\" : [7] \x7d".data) 33
        ≠ Parse (some "CIRC = \x7b \"runtime_filter\" : [7] \x7d".data) 0 := by
  refine ⟨by decide, by decide, by decide⟩

/-- C3: policy merge semantics of a successful parse. (1) Every address
the `runtime_filter` collection loop reads (the list `filter_addrs_f`
extracts from the same text) ends with the policy record
`Config_details(true)` — the filter write is unconditional, overwriting
any prior record. (2) The `sampling` collection loop never modifies an
existing policy record (first writer wins, also between duplicate
sampling entries). (3) A sampling entry for an already-recorded identity
changes nothing; (4) one with ratio `N ≤ 1` creates no record at all;
(5) one with ratio `N > 1` for a fresh identity creates
`Config_details(false, true, N - 1, N)`. -/
theorem C3_policy_merge :
    (∀ (fuel : Nat) (l : List Char) (cfg : Configuration)
      (l1 : List Char) (cfg1 : Configuration) (as : List Nat) (a : Nat),
      parse_filter_loop_f fuel l cfg = .ok (l1, cfg1) →
      filter_addrs_f fuel l = some (as, l1) →
      a ∈ as →
      fcFind cfg1.func_config a = some filtered_details)
    ∧ (∀ (fuel2 : Nat) (l2 : List Char) (cfg2 : Configuration)
      (r2 : List Char) (cfg2r : Configuration) (b : Nat)
      (d : Config_details),
      parse_sample_loop_f fuel2 l2 cfg2 = .ok (r2, cfg2r) →
      fcFind cfg2.func_config b = some d →
      fcFind cfg2r.func_config b = some d)
    ∧ (∀ (cfg3 : Configuration) (a3 : Nat) (n3 : Int) (d3 : Config_details),
      fcFind cfg3.func_config a3 = some d3 →
      sample_entry_update cfg3 a3 n3 = cfg3)
    ∧ (∀ (cfg4 : Configuration) (a4 : Nat) (n4 : Int),
      n4 ≤ 1 → sample_entry_update cfg4 a4 n4 = cfg4)
    ∧ (∀ (cfg5 : Configuration) (a5 : Nat) (n5 : Int),
      fcFind cfg5.func_config a5 = none → 1 < n5 →
      fcFind (sample_entry_update cfg5 a5 n5).func_config a5
        = some ⟨false, true, n5 - 1, n5⟩) := by
  refine ⟨?_, parse_sample_loop_f_preserves, sample_entry_update_existing,
    sample_entry_update_low, sample_entry_update_fresh⟩
  intro fuel l cfg l1 cfg1 as a h hfa hmem
  obtain ⟨as2, hfa2, hfold⟩ := parse_filter_loop_f_addrs fuel l cfg l1 cfg1 h
  rw [hfa] at hfa2
  simp only [Option.some.injEq, Prod.mk.injEq] at hfa2
  obtain ⟨hcast, -⟩ := hfa2
  subst hcast
  rw [hfold]
  exact foldl_set_filtered_mem as _ a hmem

theorem C3_policy_merge_witness :
    fcFind (Configuration.func_config
      { trace_file_name := "trace.log".data, instr_data_init_len := 20000,
        use_direct_file_output := false,
        func_config := [(7, filtered_details)] }) 7 = some filtered_details
    ∧ fcFind (Configuration.func_config
      { trace_file_name := "trace.log".data, instr_data_init_len := 20000,
        use_direct_file_output := false,
        func_config := [(7, filtered_details)] }) 7 = some filtered_details
    ∧ sample_entry_update
        { initConfiguration with func_config := [(7, filtered_details)] }
        7 5
      = { initConfiguration with func_config := [(7, filtered_details)] }
    ∧ sample_entry_update initConfiguration 3 1 = initConfiguration
    ∧ fcFind (sample_entry_update initConfiguration 3 4).func_config 3
        = some ⟨false, true, 3, 4⟩ := by
  obtain ⟨h1, h2, h3, h4, h5⟩ := C3_policy_merge
  refine ⟨?_, ?_, ?_, h4 initConfiguration 3 1 (by decide),
    h5 initConfiguration 3 4 rfl (by decide)⟩
  · exact h1 2 "7]".data initConfiguration [] _ [7] 7 rfl rfl (by decide)
  · exact h2 2 "\x7b \"func\" : 7 , \"sample\" : 3 \x7d ]".data
      { initConfiguration with func_config := [(7, filtered_details)] }
      [] _ 7 filtered_details rfl rfl
  · exact h3 { initConfiguration with func_config := [(7, filtered_details)] }
      7 5 filtered_details rfl

/-! ### Sampling-run lemmas -/

theorem ceil_div_step (N m : Nat) (hN : 2 ≤ N) :
    (m + 1 + N - 1) / N = (m + N - 1) / N + (if m % N = 0 then 1 else 0) := by
  have h := Nat.div_add_mod m N
  have hr : m % N < N := Nat.mod_lt _ (by omega)
  by_cases h0 : m % N = 0
  · rw [if_pos h0]
    have h1 : m + N - 1 = N * (m / N) + (N - 1) := by omega
    have h2 : m + 1 + N - 1 = N * (m / N + 1) := by rw [Nat.mul_succ]; omega
    rw [h1, h2, Nat.mul_add_div (by omega), Nat.mul_div_cancel_left _ (by omega)]
    have e1 : (N - 1) / N = 0 := Nat.div_eq_of_lt (by omega)
    omega
  · rw [if_neg h0]
    have h1 : m + N - 1 = N * (m / N + 1) + (m % N - 1) := by
      rw [Nat.mul_succ]; omega
    have h2 : m + 1 + N - 1 = N * (m / N + 1) + m % N := by
      rw [Nat.mul_succ]; omega
    rw [h1, h2, Nat.mul_add_div (by omega), Nat.mul_add_div (by omega)]
    have e1 : m % N / N = 0 := Nat.div_eq_of_lt (by omega)
    have e2 : (m % N - 1) / N = 0 := Nat.div_eq_of_lt (by omega)
    omega

theorem counter_mod_step (N m : Nat) (hN : 2 ≤ N) :
    ((N - 1 + m) % N + 1) % N = (N - 1 + (m + 1)) % N := by
  rw [show N - 1 + (m + 1) = N - 1 + m + 1 by omega,
    Nat.add_mod (N - 1 + m) 1 N, Nat.mod_eq_of_lt (show 1 < N by omega)]

theorem counter_closed (N m : Nat) (hN : 2 ≤ N) :
    (N - 1 + m) % N = if m % N = 0 then N - 1 else m % N - 1 := by
  have hr : m % N < N := Nat.mod_lt _ (by omega)
  rw [Nat.add_mod, Nat.mod_eq_of_lt (show N - 1 < N by omega)]
  by_cases h0 : m % N = 0
  · rw [h0, if_pos rfl, Nat.add_zero, Nat.mod_eq_of_lt (by omega)]
  · rw [if_neg h0, Nat.mod_eq_sub_mod (by omega),
      show N - 1 + m % N - N = m % N - 1 by omega,
      Nat.mod_eq_of_lt (by omega)]

theorem mode_ok_of_buffered (s : TraceState)
    (h : s.use_direct_file_output = false) : mode_ok s := by
  intro hd
  rw [h] at hd
  cases hd

theorem create_enter_fields (s : TraceState) (f : Nat) (t : Int) :
    (Create_instrumentation_record_enter s f t).func_config = s.func_config
    ∧ (Create_instrumentation_record_enter s f t).size_stack = s.size_stack
    ∧ (Create_instrumentation_record_enter s f t).use_direct_file_output
        = s.use_direct_file_output
    ∧ (Create_instrumentation_record_enter s f t).trace_ready
        = s.trace_ready := by
  rw [Create_instrumentation_record_enter]
  by_cases hfull : max_records ≤ s.instr_data.length <;>
    by_cases hdir : s.use_direct_file_output = false <;>
      simp [Print_vector_to_file, Print_record_to_file, hfull, hdir]

theorem create_exit_fields (s : TraceState) (f : Nat) (t : Int) (sz : Nat) :
    (Create_instrumentation_record_exit s f t sz).func_config = s.func_config
    ∧ (Create_instrumentation_record_exit s f t sz).size_stack = s.size_stack
    ∧ (Create_instrumentation_record_exit s f t sz).use_direct_file_output
        = s.use_direct_file_output
    ∧ (Create_instrumentation_record_exit s f t sz).trace_ready
        = s.trace_ready := by
  rw [Create_instrumentation_record_exit,
    Create_instrumentation_record_exit_push]
  by_cases hdir : s.use_direct_file_output = false
  · by_cases hfull : max_records ≤ s.instr_data.length + 1 <;>
      simp [Print_vector_to_file, hdir, hfull]
  · by_cases hfull : max_records ≤ s.instr_data.length <;>
      simp [Print_vector_to_file, Print_record_to_file, hdir, hfull]

theorem countEnter_append (f : Nat) (a b : List Instrument_data) :
    countEnter f (a ++ b) = countEnter f a + countEnter f b := by
  simp [countEnter, List.filter_append]

theorem countExit_append (f : Nat) (a b : List Instrument_data) :
    countExit f (a ++ b) = countExit f a + countExit f b := by
  simp [countExit, List.filter_append]

theorem countEnter_pair (f : Nat) (tE tX : Int) :
    countEnter f [⟨'i', f, tE, 0⟩, ⟨'o', f, tX, 0⟩] = 1 := by
  simp [countEnter, List.filter]

theorem countExit_pair (f : Nat) (tE tX : Int) :
    countExit f [⟨'i', f, tE, 0⟩, ⟨'o', f, tX, 0⟩] = 1 := by
  simp [countExit, List.filter]

theorem enter_step (F : Nat) (tE : Int) (s : TraceState) (N c : Nat)
    (hc : c < N)
    (hfc : s.func_config = [(F, ⟨false, true, (c : Int), (N : Int)⟩)])
    (hss : s.size_stack = [])
    (hdir : s.use_direct_file_output = false)
    (hrdy : s.trace_ready = true) :
    (cyg_profile_func_enter F tE s).func_config
        = [(F, ⟨false, true, (c : Int) + 1, (N : Int)⟩)]
    ∧ (cyg_profile_func_enter F tE s).size_stack = []
    ∧ (cyg_profile_func_enter F tE s).use_direct_file_output = false
    ∧ (cyg_profile_func_enter F tE s).trace_ready = true
    ∧ emitted (cyg_profile_func_enter F tE s)
        = emitted s ++ (if c + 1 = N then [⟨'i', F, tE, 0⟩] else []) := by
  obtain ⟨fc, udo, buf, log, ss, rdy⟩ := s
  replace hfc : fc = [(F, ⟨false, true, (c : Int), (N : Int)⟩)] := hfc
  replace hss : ss = [] := hss
  replace hdir : udo = false := hdir
  replace hrdy : rdy = true := hrdy
  subst hfc hss hdir hrdy
  by_cases hrec : c + 1 = N
  · have hci : (c : Int) + 1 = (N : Int) := by omega
    have henter : cyg_profile_func_enter F tE
          ⟨[(F, ⟨false, true, (c : Int), (N : Int)⟩)], false, buf, log,
            [], true⟩
        = Create_instrumentation_record_enter
            ⟨[(F, ⟨false, true, (c : Int) + 1, (N : Int)⟩)], false, buf, log,
              [], true⟩ F tE := by
      rw [cyg_profile_func_enter]
      simp [fcFind, fcSet, hci]
    rw [henter, if_pos hrec]
    obtain ⟨h1, h2, h3, h4⟩ := create_enter_fields
      ⟨[(F, ⟨false, true, (c : Int) + 1, (N : Int)⟩)], false, buf, log,
        [], true⟩ F tE
    obtain ⟨h5, -, -⟩ := emitted_create_enter
      ⟨[(F, ⟨false, true, (c : Int) + 1, (N : Int)⟩)], false, buf, log,
        [], true⟩ F tE (mode_ok_of_buffered _ rfl)
    exact ⟨h1, h2, h3, h4, h5⟩
  · have hci : ¬((c : Int) + 1 = (N : Int)) := by omega
    have henter : cyg_profile_func_enter F tE
          ⟨[(F, ⟨false, true, (c : Int), (N : Int)⟩)], false, buf, log,
            [], true⟩
        = ⟨[(F, ⟨false, true, (c : Int) + 1, (N : Int)⟩)], false, buf, log,
            [], true⟩ := by
      rw [cyg_profile_func_enter]
      simp [fcFind, fcSet, hci]
    rw [henter, if_neg hrec]
    exact ⟨rfl, rfl, rfl, rfl, by simp [emitted]⟩

theorem exit_step (F frame : Nat) (tX : Int) (s : TraceState) (N k : Nat)
    (hk : 0 < k) (hkN : k ≤ N)
    (hfc : s.func_config = [(F, ⟨false, true, (k : Int), (N : Int)⟩)])
    (hss : s.size_stack = [])
    (hdir : s.use_direct_file_output = false)
    (hrdy : s.trace_ready = true) :
    (cyg_profile_func_exit F frame tX s).func_config
        = [(F, ⟨false, true, (if k = N then 0 else (k : Int)), (N : Int)⟩)]
    ∧ (cyg_profile_func_exit F frame tX s).size_stack = []
    ∧ (cyg_profile_func_exit F frame tX s).use_direct_file_output = false
    ∧ (cyg_profile_func_exit F frame tX s).trace_ready = true
    ∧ emitted (cyg_profile_func_exit F frame tX s)
        = emitted s ++ (if k = N then [⟨'o', F, tX, 0⟩] else []) := by
  obtain ⟨fc, udo, buf, log, ss, rdy⟩ := s
  replace hfc : fc = [(F, ⟨false, true, (k : Int), (N : Int)⟩)] := hfc
  replace hss : ss = [] := hss
  replace hdir : udo = false := hdir
  replace hrdy : rdy = true := hrdy
  subst hfc hss hdir hrdy
  by_cases hrec : k = N
  · have hnl : ¬((k : Int) < (N : Int)) := by omega
    have hexit : cyg_profile_func_exit F frame tX
          ⟨[(F, ⟨false, true, (k : Int), (N : Int)⟩)], false, buf, log,
            [], true⟩
        = Create_instrumentation_record_exit
            ⟨[(F, ⟨false, true, sample_init, (N : Int)⟩)], false, buf, log,
              [], true⟩ F tX 0 := by
      rw [cyg_profile_func_exit]
      simp [fcFind, fcSet, hnl, exit_record_tail, _profapi_get_size_record]
    rw [hexit]
    simp only [if_pos hrec]
    obtain ⟨h1, h2, h3, h4⟩ := create_exit_fields
      ⟨[(F, ⟨false, true, sample_init, (N : Int)⟩)], false, buf, log,
        [], true⟩ F tX 0
    obtain ⟨h5, -, -⟩ := emitted_create_exit
      ⟨[(F, ⟨false, true, sample_init, (N : Int)⟩)], false, buf, log,
        [], true⟩ F tX 0 (mode_ok_of_buffered _ rfl)
    exact ⟨h1, h2, h3, h4, h5⟩
  · have hl : (k : Int) < (N : Int) := by omega
    have hexit : cyg_profile_func_exit F frame tX
          ⟨[(F, ⟨false, true, (k : Int), (N : Int)⟩)], false, buf, log,
            [], true⟩
        = ⟨[(F, ⟨false, true, (k : Int), (N : Int)⟩)], false, buf, log,
            [], true⟩ := by
      rw [cyg_profile_func_exit]
      simp [fcFind, hl, _profapi_remove_size_record]
    rw [hexit]
    refine ⟨by rw [if_neg hrec], rfl, rfl, rfl, ?_⟩
    rw [if_neg hrec]
    simp [emitted]

theorem sampled_pair_step (F frame : Nat) (tE tX : Int) (s : TraceState)
    (N c : Nat) (hN : 2 ≤ N) (hc : c < N)
    (hfc : s.func_config = [(F, ⟨false, true, (c : Int), (N : Int)⟩)])
    (hss : s.size_stack = [])
    (hdir : s.use_direct_file_output = false)
    (hrdy : s.trace_ready = true) :
    (sampled_pair F frame tE tX s).func_config
        = [(F, ⟨false, true, (((c + 1) % N : Nat) : Int), (N : Int)⟩)]
    ∧ (sampled_pair F frame tE tX s).size_stack = []
    ∧ (sampled_pair F frame tE tX s).use_direct_file_output = false
    ∧ (sampled_pair F frame tE tX s).trace_ready = true
    ∧ emitted (sampled_pair F frame tE tX s)
        = emitted s ++ (if c + 1 = N
            then [⟨'i', F, tE, 0⟩, ⟨'o', F, tX, 0⟩] else []) := by
  rw [sampled_pair]
  obtain ⟨e1, e2, e3, e4, e5⟩ := enter_step F tE s N c hc hfc hss hdir hrdy
  have hcast : ((c + 1 : Nat) : Int) = (c : Int) + 1 := by push_cast; ring
  have e1a : (cyg_profile_func_enter F tE s).func_config
      = [(F, ⟨false, true, ((c + 1 : Nat) : Int), (N : Int)⟩)] := by
    rw [e1, hcast]
  obtain ⟨x1, x2, x3, x4, x5⟩ := exit_step F frame tX
    (cyg_profile_func_enter F tE s) N (c + 1) (by omega) (by omega)
    e1a e2 e3 e4
  refine ⟨?_, x2, x3, x4, ?_⟩
  · rw [x1]
    by_cases hrec : c + 1 = N
    · rw [if_pos hrec, hrec, Nat.mod_self]
      rfl
    · rw [if_neg hrec, Nat.mod_eq_of_lt (by omega)]
  · rw [x5, e5, List.append_assoc]
    by_cases hrec : c + 1 = N
    · rw [if_pos hrec, if_pos hrec, if_pos hrec]
      rfl
    · rw [if_neg hrec, if_neg hrec, if_neg hrec]
      rfl

theorem run_pairs_inv (F : Nat) (fr : Nat → Nat) (tE tX : Nat → Int)
    (N : Nat) (hN : 2 ≤ N) : ∀ (m : Nat),
    (run_pairs F fr tE tX m (startState { initConfiguration with
        func_config := [(F, ⟨false, true, (N : Int) - 1, (N : Int)⟩)] })).func_config
      = [(F, ⟨false, true, (((N - 1 + m) % N : Nat) : Int), (N : Int)⟩)]
    ∧ (run_pairs F fr tE tX m (startState { initConfiguration with
        func_config := [(F, ⟨false, true, (N : Int) - 1, (N : Int)⟩)] })).size_stack = []
    ∧ (run_pairs F fr tE tX m (startState { initConfiguration with
        func_config := [(F, ⟨false, true, (N : Int) - 1, (N : Int)⟩)] })).use_direct_file_output = false
    ∧ (run_pairs F fr tE tX m (startState { initConfiguration with
        func_config := [(F, ⟨false, true, (N : Int) - 1, (N : Int)⟩)] })).trace_ready = true
    ∧ countEnter F (emitted (run_pairs F fr tE tX m (startState
        { initConfiguration with
          func_config := [(F, ⟨false, true, (N : Int) - 1, (N : Int)⟩)] })))
      = (m + N - 1) / N
    ∧ countExit F (emitted (run_pairs F fr tE tX m (startState
        { initConfiguration with
          func_config := [(F, ⟨false, true, (N : Int) - 1, (N : Int)⟩)] })))
      = (m + N - 1) / N := by
  intro m
  induction m with
  | zero =>
    refine ⟨?_, rfl, rfl, rfl, ?_, ?_⟩
    · rw [show ((((N - 1 + 0) % N : Nat)) : Int) = (N : Int) - 1 by
        rw [Nat.add_zero, Nat.mod_eq_of_lt (by omega)]; omega]
      rfl
    · show (0 : Nat) = (0 + N - 1) / N
      rw [Nat.div_eq_of_lt (by omega)]
    · show (0 : Nat) = (0 + N - 1) / N
      rw [Nat.div_eq_of_lt (by omega)]
  | succ m ih =>
    obtain ⟨hfc, hss2, hdir2, hrdy2, hen, hex⟩ := ih
    obtain ⟨sfc, sss, sdir, srdy, semit⟩ := sampled_pair_step F (fr m) (tE m)
      (tX m) (run_pairs F fr tE tX m (startState { initConfiguration with
        func_config := [(F, ⟨false, true, (N : Int) - 1, (N : Int)⟩)] }))
      N ((N - 1 + m) % N) hN (Nat.mod_lt _ (by omega)) hfc hss2 hdir2 hrdy2
    simp only [run_pairs]
    refine ⟨?_, sss, sdir, srdy, ?_, ?_⟩
    · rw [sfc, counter_mod_step N m hN]
    · rw [semit, countEnter_append, hen]
      by_cases h0 : m % N = 0
      · have hcN : (N - 1 + m) % N + 1 = N := by
          rw [counter_closed N m hN, if_pos h0]; omega
        rw [if_pos hcN, countEnter_pair, ceil_div_step N m hN, if_pos h0]
      · have hmlt : m % N < N := Nat.mod_lt _ (by omega)
        have hcN : ¬((N - 1 + m) % N + 1 = N) := by
          rw [counter_closed N m hN, if_neg h0]; omega
        rw [if_neg hcN, ceil_div_step N m hN, if_neg h0]
        simp [countEnter]
    · rw [semit, countExit_append, hex]
      by_cases h0 : m % N = 0
      · have hcN : (N - 1 + m) % N + 1 = N := by
          rw [counter_closed N m hN, if_pos h0]; omega
        rw [if_pos hcN, countExit_pair, ceil_div_step N m hN, if_pos h0]
      · have hmlt : m % N < N := Nat.mod_lt _ (by omega)
        have hcN : ¬((N - 1 + m) % N + 1 = N) := by
          rw [counter_closed N m hN, if_neg h0]; omega
        rw [if_neg hcN, ceil_div_step N m hN, if_neg h0]
        simp [countExit]

/-- C1 (amended): for a function `F` with sampling entry
`{func: F, sample: N}`, `N > 1` (policy record
`Config_details(false, true, N - 1, N)` as `Parse_sample` creates it),
across `M` consecutive complete enter/exit pairs for `F` from collector
startup, exactly `⌈M / N⌉ = (M + N - 1) / N` enter records and the same
number of exit records are emitted, and the recorded calls are evenly
spaced every `N` calls — the *1st* call of each run of `N` is the one
recorded (pair `k`, 0-indexed, is recorded iff `k % N = 0`), because the
counter starts at `N - 1` and the enter hook increments before
comparing. The spec/claim figure `⌊M / N⌋` and "the Nth call of each
run" are both wrong (see the counterexample). -/
theorem C1_sampling_run_counts (F : Nat) (fr : Nat → Nat)
    (tE tX : Nat → Int) (N : Nat) (hN : 2 ≤ N) (M k : Nat) :
    countEnter F (emitted (run_pairs F fr tE tX M (startState
        { initConfiguration with
          func_config := [(F, ⟨false, true, (N : Int) - 1, (N : Int)⟩)] })))
      = (M + N - 1) / N
    ∧ countExit F (emitted (run_pairs F fr tE tX M (startState
        { initConfiguration with
          func_config := [(F, ⟨false, true, (N : Int) - 1, (N : Int)⟩)] })))
      = (M + N - 1) / N
    ∧ countEnter F (emitted (run_pairs F fr tE tX (k + 1) (startState
        { initConfiguration with
          func_config := [(F, ⟨false, true, (N : Int) - 1, (N : Int)⟩)] })))
      = countEnter F (emitted (run_pairs F fr tE tX k (startState
          { initConfiguration with
            func_config := [(F, ⟨false, true, (N : Int) - 1, (N : Int)⟩)] })))
        + (if k % N = 0 then 1 else 0) := by
  obtain ⟨-, -, -, -, henM, hexM⟩ := run_pairs_inv F fr tE tX N hN M
  obtain ⟨-, -, -, -, henk1, -⟩ := run_pairs_inv F fr tE tX N hN (k + 1)
  obtain ⟨-, -, -, -, henk, -⟩ := run_pairs_inv F fr tE tX N hN k
  refine ⟨henM, hexM, ?_⟩
  rw [henk1, henk, ceil_div_step N k hN]

theorem C1_sampling_run_counts_witness :
    countEnter 5 (emitted (run_pairs 5 zeroN zeroI zeroI 3 (startState
        { initConfiguration with
          func_config := [(5, ⟨false, true, (2 : Int) - 1, (2 : Int)⟩)] })))
      = (3 + 2 - 1) / 2
    ∧ countExit 5 (emitted (run_pairs 5 zeroN zeroI zeroI 3 (startState
        { initConfiguration with
          func_config := [(5, ⟨false, true, (2 : Int) - 1, (2 : Int)⟩)] })))
      = (3 + 2 - 1) / 2
    ∧ countEnter 5 (emitted (run_pairs 5 zeroN zeroI zeroI (1 + 1) (startState
        { initConfiguration with
          func_config := [(5, ⟨false, true, (2 : Int) - 1, (2 : Int)⟩)] })))
      = countEnter 5 (emitted (run_pairs 5 zeroN zeroI zeroI 1 (startState
          { initConfiguration with
            func_config := [(5, ⟨false, true, (2 : Int) - 1, (2 : Int)⟩)] })))
        + (if 1 % 2 = 0 then 1 else 0) :=
  C1_sampling_run_counts 5 zeroN zeroI zeroI 2 (by decide) 3 1

/-- C1 counterexample: with ratio `N = 2` and a single pair (`M = 1`)
the collector already emits one enter and one exit record for `F` —
`Parse_sample` seeds the counter at `N - 1` and the enter hook
increments before comparing, so the 1st call of each run of `N` is
recorded, not the Nth — while the claim predicts
`⌊M / N⌋ = ⌊1 / 2⌋ = 0` records. -/
theorem C1_counterexample :
    countEnter 5 (emitted (run_pairs 5 zeroN zeroI zeroI 1 (startState
        { initConfiguration with
          func_config := [(5, ⟨false, true, 1, 2⟩)] }))) = 1
    ∧ countExit 5 (emitted (run_pairs 5 zeroN zeroI zeroI 1 (startState
        { initConfiguration with
          func_config := [(5, ⟨false, true, 1, 2⟩)] }))) = 1
    ∧ (1 : Nat) / 2 = 0 := by
  refine ⟨by decide, by decide, by decide⟩

end Perun
